import Mathlib

/-!
Verification of the receipt ingestion pipeline of budgetly_lga.

The Python sources under `backend/` are shallowly embedded: pure string and
arithmetic routines are translated directly; Python `float` arithmetic is
modelled with exact rationals (`ℚ`); byte strings are `List Nat`; calls into
external libraries (PIL, PyPDF2, python-magic, `secrets`) are modelled as
oracle parameters; exceptions are modelled with `Except`/`Option`.
-/

namespace Budgetly

/-! ## Python string primitives -/

/-- Characters treated as whitespace by Python `str.strip()` and by the
regex class `\s` (ASCII range). -/
def pyIsSpace (c : Char) : Bool :=
  c = ' ' || c = '\t' || c = '\n' || c = '\r' || c = '\x0b' || c = '\x0c'

/-- Python `str.strip()` on a character list. -/
def pyStrip (l : List Char) : List Char :=
  ((l.dropWhile pyIsSpace).reverse.dropWhile pyIsSpace).reverse

/-- Python `str.strip()` on a string. -/
def pyStripS (s : String) : String :=
  ⟨pyStrip s.data⟩

/-- Python `str.lower()` (ASCII). -/
def pyLower (l : List Char) : List Char :=
  l.map Char.toLower

/-- Does `l` start with `p`? (list prefix test, used for substring search). -/
def startsWithList : List Char → List Char → Bool
  | [], _ => true
  | _ :: _, [] => false
  | p :: ps, c :: cs => p = c && startsWithList ps cs

/-- Python substring containment `needle in hay` (empty needle is contained). -/
def containsSub (needle : List Char) : List Char → Bool
  | [] => needle.isEmpty
  | c :: rest => startsWithList needle (c :: rest) || containsSub needle rest

/-- Helper for Python `str.split()`: accumulate the current word. -/
def splitWsAux : List Char → List Char → List (List Char)
  | [], acc => if acc.isEmpty then [] else [acc.reverse]
  | c :: rest, acc =>
    if pyIsSpace c then
      if acc.isEmpty then splitWsAux rest [] else acc.reverse :: splitWsAux rest []
    else splitWsAux rest (c :: acc)

/-- Python `str.split()` with no argument: split on whitespace runs,
discarding empty words. -/
def splitWs (l : List Char) : List (List Char) :=
  splitWsAux l []

/-- A `\w` character of the merchant-normalization regexes (ASCII model of
Python `[A-Za-z0-9_]` plus unicode word characters). -/
def isWordChar (c : Char) : Bool :=
  c.isAlphanum || c = '_'

/-- Replace every maximal whitespace run by the single character kept last in
the run; composed with the space substitution this models
`re.sub(r"\s+", " ", s)`. -/
def squeezeWs : List Char → List Char
  | [] => []
  | [c] => [c]
  | a :: b :: rest =>
    if pyIsSpace a && pyIsSpace b then squeezeWs (b :: rest)
    else a :: squeezeWs (b :: rest)

/-! ## Merchant-name normalization
(`DuplicateDetectionService._normalize_merchant_name`).

The three `re.sub` calls are `$`-anchored, so each one removes at most the
leftmost suffix match.  Their semantics were derived from the regexes
`\s*(llc|...)\.?\s*$`, `\s*#\d+\s*$` and `\s*-\s*.*$` (with `$` also matching
before a trailing newline and `.` not matching newlines). -/

/-- The business-suffix alternatives of the first normalization regex. -/
def suffixWordList : List (List Char) :=
  ["llc", "inc", "corp", "ltd", "co", "company", "restaurant", "cafe",
   "coffee", "shop", "store", "market", "deli"].map String.data

/-- Does the whole tail `t` match `\s*(llc|...)\.?\s*$`?  Since the listed
words contain no whitespace and no dot, this holds exactly when `t` stripped
of surrounding whitespace is one of the words, optionally followed by one
dot. -/
def sub1Match (t : List Char) : Bool :=
  let u := pyStrip t
  suffixWordList.any fun w => u = w || u = w ++ ['.']

/-- Remove the leftmost suffix matching the business-suffix regex. -/
def applySub1 : List Char → List Char
  | [] => []
  | c :: rest => if sub1Match (c :: rest) then [] else c :: applySub1 rest

/-- Does the whole tail `t` match `\s*#\d+\s*$`? -/
def sub2Match (t : List Char) : Bool :=
  match pyStrip t with
  | '#' :: ds => !ds.isEmpty && ds.all Char.isDigit
  | _ => false

/-- Remove the leftmost suffix matching `\s*#\d+\s*$`. -/
def applySub2 : List Char → List Char
  | [] => []
  | c :: rest => if sub2Match (c :: rest) then [] else c :: applySub2 rest

/-- After the dash of `\s*-\s*.*$`: the rest matches up to the end of the
string (the greedy engine consumes everything) iff every newline of the rest
lies inside its leading whitespace run. -/
def sub3TailFull (u : List Char) : Bool :=
  (u.dropWhile pyIsSpace).all fun c => c ≠ '\n'

/-- After the dash of `\s*-\s*.*$`: the match can end just before a final
newline, which is then kept by `re.sub`. -/
def sub3TailBeforeNl (u : List Char) : Bool :=
  match u.getLast? with
  | some '\n' => (u.dropLast.dropWhile pyIsSpace).all fun c => c ≠ '\n'
  | _ => false

/-- Does the tail `t` match `\s*-\s*.*$` with the match running to the end
of the string? -/
def sub3MatchFull (t : List Char) : Bool :=
  match t.dropWhile pyIsSpace with
  | '-' :: u => sub3TailFull u
  | _ => false

/-- Does the tail `t` match `\s*-\s*.*$` only with `$` sitting before a
final newline? -/
def sub3MatchNl (t : List Char) : Bool :=
  match t.dropWhile pyIsSpace with
  | '-' :: u => sub3TailBeforeNl u
  | _ => false

/-- Remove the leftmost suffix matching `\s*-\s*.*$` (a final newline
survives when `$` matched in front of it). -/
def applySub3 : List Char → List Char
  | [] => []
  | c :: rest =>
    if sub3MatchFull (c :: rest) then []
    else if sub3MatchNl (c :: rest) then ['\n']
    else c :: applySub3 rest

/-- The substitution `re.sub(r"[^\w\s]", " ", s)`: non-word, non-space
characters become spaces. -/
def mapWordSpace (l : List Char) : List Char :=
  l.map fun c => if isWordChar c || pyIsSpace c then c else ' '

/-- Finish `re.sub(r"\s+", " ", s)`: after collapsing runs, each remaining
whitespace character becomes a plain space. -/
def mapSpaceToBlank (l : List Char) : List Char :=
  l.map fun c => if pyIsSpace c then ' ' else c

/-- `DuplicateDetectionService._normalize_merchant_name` on a character
list: lowercase, strip, drop business suffixes, location codes and dashed
tails, substitute non-word characters by spaces, collapse whitespace. -/
def normalizeMerchantList (m : List Char) : List Char :=
  pyStrip (mapSpaceToBlank (squeezeWs (mapWordSpace
    (applySub3 (applySub2 (applySub1 (pyStrip (pyLower m))))))))

/-- `_normalize_merchant_name` on strings. -/
def normalizeMerchant (m : String) : String :=
  ⟨normalizeMerchantList m.data⟩

example : normalizeMerchant "Starbucks #123" = "starbucks" := by decide
example : normalizeMerchant "taco" = "ta" := by decide
example : normalizeMerchant "joe shop store" = "joe shop" := by decide
example : normalizeMerchant "Joe-Downtown" = "joe" := by decide
example : normalizeMerchant "a.b" = "a b" := by decide
example : normalizeMerchant "  inc. " = "" := by decide

/-! ## difflib.SequenceMatcher
Used by `_calculate_merchant_similarity` for the fuzzy branch.  Both inputs
are short normalized merchant names, so the autojunk heuristic (which only
activates for second sequences of length at least 200) never fires and
`b2j` contains every position of `b`. -/

/-- Length of the common run at the heads of two lists. -/
def commonRunLen : List Char → List Char → Nat
  | a :: as', b :: bs => if a = b then commonRunLen as' bs + 1 else 0
  | _, _ => 0

/-- Length of the common run of `a` and `b` starting at positions `i`, `j`. -/
def runLenAt (a b : List Char) (i j : Nat) : Nat :=
  commonRunLen (a.drop i) (b.drop j)

/-- `SequenceMatcher.find_longest_match` over the whole sequences: among the
longest common substrings, the one with the smallest position in `a`, then
the smallest position in `b` (the `k > bestk` update rule of difflib with
`i` ascending and `j` ascending). -/
def findLongestMatch (a b : List Char) : Nat × Nat × Nat :=
  (List.range a.length).foldl
    (fun best i =>
      (List.range b.length).foldl
        (fun best j =>
          let k := runLenAt a b i j
          if k > best.2.2 then (i, j, k) else best)
        best)
    (0, 0, 0)

/-- Total size of the matching blocks of `get_matching_blocks`: recursively
take the longest match and recurse on both sides.  Structured with explicit
fuel; `a.length + b.length + 1` is always enough since each recursive call
strictly shortens the first list. -/
def matchTotalFuel : Nat → List Char → List Char → Nat
  | 0, _, _ => 0
  | fuel + 1, a, b =>
    let m := findLongestMatch a b
    let i := m.1
    let j := m.2.1
    let k := m.2.2
    if k = 0 then 0
    else
      k + matchTotalFuel fuel (a.take i) (b.take j) +
        matchTotalFuel fuel (a.drop (i + k)) (b.drop (j + k))

/-- Total matched size of `SequenceMatcher(None, a, b)`. -/
def matchTotal (a b : List Char) : Nat :=
  matchTotalFuel (a.length + b.length + 1) a b

/-- `SequenceMatcher.ratio()`: `2*M / (len(a)+len(b))`, and `1.0` for two
empty sequences. -/
def ratioOf (a b : List Char) : ℚ :=
  if a.length + b.length = 0 then 1
  else (2 * matchTotal a b : ℚ) / (a.length + b.length)

set_option maxRecDepth 8000 in
example : ratioOf "mxpqrs".data "rsmpq".data = 6 / 11 := by with_unfolding_all decide
set_option maxRecDepth 8000 in
example : ratioOf "rsmpq".data "mxpqrs".data = 4 / 11 := by with_unfolding_all decide
set_option maxRecDepth 8000 in
example : ratioOf "abcd".data "bcda".data = 6 / 8 := by with_unfolding_all decide

/-! ## Similarity components
(`DuplicateDetectionService._calculate_*_similarity`). -/

/-- Number of distinct elements of `l` (Python `len(set(l))`-style helper). -/
def setCard (l : List (List Char)) : Nat :=
  l.dedup.length

/-- `_calculate_merchant_similarity`: exact match 1.0, containment 0.9,
otherwise the SequenceMatcher ratio boosted to 0.8 times the word-overlap
ratio when that is larger. -/
def calcMerchantSimilarity (receiptMerchant expenseDescription : String) : ℚ :=
  if receiptMerchant = "" || expenseDescription = "" then 0
  else
    let mN := normalizeMerchantList receiptMerchant.data
    let dN := normalizeMerchantList expenseDescription.data
    if mN = dN then 1
    else if containsSub mN dN || containsSub dN mN then 9 / 10
    else
      let sim := ratioOf mN dN
      let mW := splitWs mN
      let dW := splitWs dN
      if !mW.isEmpty && !dW.isEmpty then
        let inter := (mW.dedup.filter fun w => dW.contains w).length
        let union := setCard (mW ++ dW)
        max sim ((inter : ℚ) / (union : ℚ) * (8 / 10))
      else sim

/-- `_calculate_amount_similarity`: banded similarity of the relative
difference against the average of the two amounts. -/
def calcAmountSimilarity (receiptAmount expenseAmount : ℚ) : ℚ :=
  if receiptAmount ≤ 0 || expenseAmount ≤ 0 then 0
  else if |receiptAmount - expenseAmount| < 1 / 100 then 1
  else
    let avgAmount := (receiptAmount + expenseAmount) / 2
    let percentageDiff := |receiptAmount - expenseAmount| / avgAmount
    if percentageDiff ≤ 2 / 100 then 1
    else if percentageDiff ≤ 5 / 100 then 8 / 10
    else if percentageDiff ≤ 1 / 10 then 6 / 10
    else if percentageDiff ≤ 2 / 10 then 3 / 10
    else 0

/-- One day in microseconds (Python datetimes are modelled as microseconds
on the proleptic Gregorian calendar). -/
def microsPerDay : Int := 86400000000

/-- `_calculate_date_similarity`: banded similarity of
`abs((receipt_date - expense_date).days)`; Python `timedelta.days` is the
floor of the difference in days, taken before `abs`. -/
def calcDateSimilarity (receiptDate expenseDate : Option Int) : ℚ :=
  match receiptDate, expenseDate with
  | some rd, some ed =>
    let dayDiff := ((rd - ed).fdiv microsPerDay).natAbs
    if dayDiff = 0 then 1
    else if dayDiff ≤ 1 then 9 / 10
    else if dayDiff ≤ 3 then 7 / 10
    else if dayDiff ≤ 7 then 5 / 10
    else if dayDiff ≤ 30 then 2 / 10
    else 0
  | _, _ => 0

/-! ## Date parsing (`DuplicateDetectionService._parse_date`)

Python `datetime.strptime` is modelled per CPython `_strptime`: each format
directive matches a bounded digit pattern (with the alternation preference
order of the generated regex, and no backtracking once the whole pattern has
matched but trailing input remains), and the resulting fields are validated
by the `datetime` constructor.  A parsed datetime is represented by its
microsecond count on the proleptic Gregorian calendar. -/

/-- Try parse candidates in regex-preference order, passing the value and
remaining input to the continuation. -/
def tryCands {α : Type} (cands : List (Nat × List Char)) (k : Nat → List Char → Option α) :
    Option α :=
  match cands with
  | [] => none
  | (v, rest) :: more =>
    match k v rest with
    | some r => some r
    | none => tryCands more k

/-- Digit value of a character. -/
def digitVal (c : Char) : Nat := c.toNat - '0'.toNat

/-- `%Y`: exactly four digits. -/
def candsY : List Char → List (Nat × List Char)
  | a :: b :: c :: d :: rest =>
    if a.isDigit && b.isDigit && c.isDigit && d.isDigit then
      [(digitVal a * 1000 + digitVal b * 100 + digitVal c * 10 + digitVal d, rest)]
    else []
  | _ => []

/-- `%m`: regex `(1[0-2]|0[1-9]|[1-9])`, alternatives in that order. -/
def candsM : List Char → List (Nat × List Char)
  | a :: b :: rest =>
    if a = '1' && ('0' ≤ b && b ≤ '2') then
      [(10 + digitVal b, rest), (1, b :: rest)]
    else if a = '0' && ('1' ≤ b && b ≤ '9') then [(digitVal b, rest)]
    else if '1' ≤ a && a ≤ '9' then [(digitVal a, b :: rest)]
    else []
  | [a] => if '1' ≤ a && a ≤ '9' then [(digitVal a, [])] else []
  | [] => []

/-- `%d`: regex `(3[01]|[12]\d|0[1-9]|[1-9])`. -/
def candsD : List Char → List (Nat × List Char)
  | a :: b :: rest =>
    if a = '3' && ('0' ≤ b && b ≤ '1') then
      [(30 + digitVal b, rest), (3, b :: rest)]
    else if ('1' ≤ a && a ≤ '2') && b.isDigit then
      [(digitVal a * 10 + digitVal b, rest), (digitVal a, b :: rest)]
    else if a = '0' && ('1' ≤ b && b ≤ '9') then [(digitVal b, rest)]
    else if '1' ≤ a && a ≤ '9' then [(digitVal a, b :: rest)]
    else []
  | [a] => if '1' ≤ a && a ≤ '9' then [(digitVal a, [])] else []
  | [] => []

/-- `%H`: regex `(2[0-3]|[0-1]\d|\d)`. -/
def candsH : List Char → List (Nat × List Char)
  | a :: b :: rest =>
    if a = '2' && ('0' ≤ b && b ≤ '3') then
      [(20 + digitVal b, rest), (2, b :: rest)]
    else if ('0' ≤ a && a ≤ '1') && b.isDigit then
      [(digitVal a * 10 + digitVal b, rest), (digitVal a, b :: rest)]
    else if a.isDigit then [(digitVal a, b :: rest)]
    else []
  | [a] => if a.isDigit then [(digitVal a, [])] else []
  | [] => []

/-- `%M` and `%S`: regex `([0-5]\d|\d)`. -/
def candsMS : List Char → List (Nat × List Char)
  | a :: b :: rest =>
    if ('0' ≤ a && a ≤ '5') && b.isDigit then
      [(digitVal a * 10 + digitVal b, rest), (digitVal a, b :: rest)]
    else if a.isDigit then [(digitVal a, b :: rest)]
    else []
  | [a] => if a.isDigit then [(digitVal a, [])] else []
  | [] => []

/-- `%f`: regex `\d{1,6}`, greedy, value padded right to microseconds. -/
def candsF (l : List Char) : List (Nat × List Char) :=
  let ds := (l.takeWhile Char.isDigit).take 6
  let n := ds.length
  if n = 0 then []
  else
    (List.range n).map fun back =>
      let len := n - back
      let taken := ds.take len
      (taken.foldl (fun acc c => acc * 10 + digitVal c) 0 * 10 ^ (6 - len), l.drop len)

/-- Is `y` a Gregorian leap year? -/
def isLeapYear (y : Nat) : Bool :=
  (y % 4 = 0 && y % 100 ≠ 0) || y % 400 = 0

/-- Days in month `m` of year `y` (the validation the `datetime` constructor
performs on strptime output). -/
def daysInMonth (y m : Nat) : Nat :=
  if m = 2 then (if isLeapYear y then 29 else 28)
  else if m = 4 || m = 6 || m = 9 || m = 11 then 30
  else 31

/-- A parsed datetime, fields as validated by the `datetime` constructor. -/
structure PyDateTime where
  year : Nat
  month : Nat
  day : Nat
  hour : Nat := 0
  minute : Nat := 0
  second : Nat := 0
  microsecond : Nat := 0
deriving DecidableEq, Repr

/-- Is this a datetime the constructor accepts? -/
def PyDateTime.valid (t : PyDateTime) : Bool :=
  1 ≤ t.year && t.year ≤ 9999 && 1 ≤ t.month && t.month ≤ 12 &&
    1 ≤ t.day && t.day ≤ daysInMonth t.year t.month

/-- Day number of a Gregorian date relative to 1970-01-01
(the `days_from_civil` algorithm; only differences matter here). -/
def rataDie (y m d : Nat) : Int :=
  let yShift : Int := if m ≤ 2 then (y : Int) - 1 else (y : Int)
  let era : Int := yShift / 400
  let yoe : Int := yShift - era * 400
  let mp : Int := if m > 2 then (m : Int) - 3 else (m : Int) + 9
  let doy : Int := (153 * mp + 2) / 5 + (d : Int) - 1
  let doe : Int := yoe * 365 + yoe / 4 - yoe / 100 + doy
  era * 146097 + doe - 719468

/-- Microseconds of a datetime on the proleptic Gregorian calendar;
differences of these model `datetime` subtraction. -/
def PyDateTime.micros (t : PyDateTime) : Int :=
  rataDie t.year t.month t.day * microsPerDay +
    ((t.hour * 3600 + t.minute * 60 + t.second) * 1000000 + t.microsecond : Nat)

/-- Parse `%Y-%m-%d` against the complete input. -/
def parseFmtYmd (l : List Char) : Option PyDateTime :=
  match candsY l with
  | [(y, r1)] =>
    match r1 with
    | '-' :: r2 =>
      tryCands (candsM r2) fun m r3 =>
        match r3 with
        | '-' :: r4 =>
          tryCands (candsD r4) fun d r5 =>
            if r5.isEmpty then some { year := y, month := m, day := d } else none
        | _ => none
    | _ => none
  | _ => none

/-- Parse `%m/%d/%Y` against the complete input. -/
def parseFmtMdy (l : List Char) : Option PyDateTime :=
  tryCands (candsM l) fun m r1 =>
    match r1 with
    | '/' :: r2 =>
      tryCands (candsD r2) fun d r3 =>
        match r3 with
        | '/' :: r4 =>
          match candsY r4 with
          | [(y, r5)] =>
            if r5.isEmpty then some { year := y, month := m, day := d } else none
          | _ => none
        | _ => none
    | _ => none

/-- Parse `%d/%m/%Y` against the complete input. -/
def parseFmtDmy (l : List Char) : Option PyDateTime :=
  tryCands (candsD l) fun d r1 =>
    match r1 with
    | '/' :: r2 =>
      tryCands (candsM r2) fun m r3 =>
        match r3 with
        | '/' :: r4 =>
          match candsY r4 with
          | [(y, r5)] =>
            if r5.isEmpty then some { year := y, month := m, day := d } else none
          | _ => none
        | _ => none
    | _ => none

/-- Parse `%H:%M:%S` after a date, consuming the complete rest, with an
optional `.%f` tail when `withFrac` is set. -/
def parseTimeTail (withFrac : Bool) (l : List Char) (y m d : Nat) : Option PyDateTime :=
  tryCands (candsH l) fun hh r1 =>
    match r1 with
    | ':' :: r2 =>
      tryCands (candsMS r2) fun mm r3 =>
        match r3 with
        | ':' :: r4 =>
          tryCands (candsMS r4) fun ss r5 =>
            if withFrac then
              match r5 with
              | '.' :: r6 =>
                tryCands (candsF r6) fun f r7 =>
                  if r7.isEmpty then
                    some { year := y, month := m, day := d, hour := hh, minute := mm,
                           second := ss, microsecond := f }
                  else none
              | _ => none
            else if r5.isEmpty then
              some { year := y, month := m, day := d, hour := hh, minute := mm, second := ss }
            else none
        | _ => none
    | _ => none

/-- Parse `%Y-%m-%d` followed by separator `sep` and a time, used for the
`%Y-%m-%d %H:%M:%S`, `%Y-%m-%dT%H:%M:%S` and `%Y-%m-%dT%H:%M:%S.%f`
formats. -/
def parseFmtYmdTime (sep : Char) (withFrac : Bool) (l : List Char) : Option PyDateTime :=
  match candsY l with
  | [(y, r1)] =>
    match r1 with
    | '-' :: r2 =>
      tryCands (candsM r2) fun m r3 =>
        match r3 with
        | '-' :: r4 =>
          tryCands (candsD r4) fun d r5 =>
            match r5 with
            | c :: r6 => if c = sep then parseTimeTail withFrac r6 y m d else none
            | _ => none
        | _ => none
    | _ => none
  | _ => none

/-- Require constructor validity on a strptime parse result (an out-of-range
day raises `ValueError`, and the next format is tried). -/
def validated (r : Option PyDateTime) : Option PyDateTime :=
  match r with
  | some t => if t.valid then some t else none
  | none => none

/-- `_parse_date`: try the six formats in order, then fall back to the part
of the string before the first `T` or space parsed as `%Y-%m-%d`. -/
def parseDate (dateStr : String) : Option PyDateTime :=
  if dateStr = "" then none
  else
    let l := dateStr.data
    match validated (parseFmtYmd l) with
    | some t => some t
    | none =>
    match validated (parseFmtMdy l) with
    | some t => some t
    | none =>
    match validated (parseFmtDmy l) with
    | some t => some t
    | none =>
    match validated (parseFmtYmdTime ' ' false l) with
    | some t => some t
    | none =>
    match validated (parseFmtYmdTime 'T' false l) with
    | some t => some t
    | none =>
    match validated (parseFmtYmdTime 'T' true l) with
    | some t => some t
    | none =>
      let datePart := (l.takeWhile fun c => c ≠ 'T').takeWhile fun c => c ≠ ' '
      validated (parseFmtYmd datePart)

/-- `_parse_date` composed with the microsecond representation. -/
def parseDateMicros (dateStr : String) : Option Int :=
  (parseDate dateStr).map PyDateTime.micros

example : parseDate "2024-1-5" = some { year := 2024, month := 1, day := 5 } := by decide
example : parseDate "2024-02-30" = none := by decide
example : parseDate "02/29/2024" = some { year := 2024, month := 2, day := 29 } := by decide
example : parseDate "2024-01-05T33" = some { year := 2024, month := 1, day := 5 } := by decide
example : parseDate "" = none := by decide
example : parseDate "2024-01-05T10:00:00" =
    some { year := 2024, month := 1, day := 5, hour := 10 } := by decide
example : rataDie 1970 1 1 = 0 := by decide
example : rataDie 2024 3 1 - rataDie 2024 2 28 = 2 := by decide

/-! ## Duplicate detection service
(`DuplicateDetectionService.check_duplicate_expense`).

Ledger entries are modelled with the fields the service reads; monetary
amounts are numeric (exact rationals standing for Python floats).  The
expense-database attribute access of `_get_user_expenses` may raise, which
is modelled by `Except`; the only other raising step reachable inside the
outer `try` is `float(extracted_data.get("total_amount", 0))`, modelled by
an `Except`-valued field. -/

/-- A ledger entry as read by the pipeline. -/
structure Expense where
  id : String
  user_id : String
  description : String
  amount : ℚ
  category : String := "Other"
  date : String
  payment_method : String := "other"
  notes : String := ""
  receipt_token : Option String := none
  created_at : String := ""
  updated_at : String := ""
deriving DecidableEq, Repr

/-- The component and total scores of `_calculate_similarity`. -/
structure SimilarityScore where
  merchant_score : ℚ
  amount_score : ℚ
  date_score : ℚ
  total_score : ℚ
deriving DecidableEq, Repr

/-- `_calculate_similarity`: weighted combination of the three component
similarities (`receiptMerchant` arrives already normalized by the caller). -/
def calcSimilarity (receiptMerchant : String) (receiptAmount : ℚ)
    (receiptDate : Option Int) (expense : Expense) : SimilarityScore :=
  let merchantScore := calcMerchantSimilarity receiptMerchant expense.description
  let amountScore := calcAmountSimilarity receiptAmount expense.amount
  let dateScore := calcDateSimilarity receiptDate (parseDateMicros expense.date)
  { merchant_score := merchantScore
    amount_score := amountScore
    date_score := dateScore
    total_score := merchantScore * (5 / 10) + amountScore * (35 / 100) + dateScore * (15 / 100) }

/-- The structured OCR output fields that the pipeline reads
(`extracted_data`).  `total_amount` is `Except`-valued: an `error` value
stands for a payload on which Python `float()` raises. -/
structure ExtractedData where
  is_receipt : Bool := true
  merchant : String := ""
  total_amount : Except String ℚ := .ok 0
  date : String := ""
  category : String := "Other"
  payment_method : String := "other"
  confidence : ℚ := 0
  confidence_level : String := "medium"
  confidence_explanation : String := ""
  validation_warnings : List String := []

/-- The verdict dictionary returned by `check_duplicate_expense`. -/
structure DuplicateVerdict where
  is_duplicate : Bool
  confidence : ℚ
  existing_expense : Option Expense := none
  similar_expenses : List (Expense × ℚ) := []
  message : String := ""
  error_msg : Option String := none

/-- `_get_user_expenses`: filter the expense database by owner; any raising
database access is caught and turned into the empty list. -/
def getUserExpenses (expensesDb : Except String (List Expense)) (userId : String) :
    List Expense :=
  match expensesDb with
  | .error _ => []
  | .ok l => l.filter fun e => e.user_id = userId

/-- Stable insertion into a list sorted descending by total score
(`list.sort(key=..., reverse=True)` keeps the original order of ties). -/
def insertByScoreDesc (x : Expense × SimilarityScore) :
    List (Expense × SimilarityScore) → List (Expense × SimilarityScore)
  | [] => [x]
  | y :: ys =>
    if y.2.total_score > x.2.total_score then y :: insertByScoreDesc x ys
    else x :: y :: ys

/-- Stable sort, descending by total score. -/
def sortByScoreDesc : List (Expense × SimilarityScore) → List (Expense × SimilarityScore)
  | [] => []
  | x :: xs => insertByScoreDesc x (sortByScoreDesc xs)

/-- The filtering loop of `check_duplicate_expense`: score every existing
expense and keep those above the 0.70 discard threshold. -/
def duplicateCandidates (receiptMerchant : String) (receiptAmount : ℚ)
    (receiptDate : Option Int) (existingExpenses : List Expense) :
    List (Expense × SimilarityScore) :=
  existingExpenses.filterMap fun expense =>
    let s := calcSimilarity receiptMerchant receiptAmount receiptDate expense
    if s.total_score > 7 / 10 then some (expense, s) else none

/-- The decision on the sorted candidate list: test the best against the
0.85 duplicate threshold, and surface up to three near matches
otherwise. -/
def duplicateVerdictOfSorted : List (Expense × SimilarityScore) → DuplicateVerdict
  | [] => { is_duplicate := false, confidence := 0, message := "No similar expenses found" }
  | best :: rest =>
    if best.2.total_score ≥ 85 / 100 then
      { is_duplicate := true, confidence := best.2.total_score,
        existing_expense := some best.1,
        message := "This receipt appears to already be processed" }
    else
      { is_duplicate := false, confidence := best.2.total_score,
        similar_expenses := ((best :: rest).take 3).map fun p => (p.1, p.2.total_score),
        message := "Similar expenses found but not duplicates" }

/-- The decision tail of `check_duplicate_expense`: sort the candidates by
score descending, then decide. -/
def duplicateVerdictOf (potentialDuplicates : List (Expense × SimilarityScore)) :
    DuplicateVerdict :=
  duplicateVerdictOfSorted (sortByScoreDesc potentialDuplicates)

/-- The body of `check_duplicate_expense` inside its outer `try`: an
`error` result stands for a raised exception (the only raising step after
the guarded database read is the `float()` conversion of the extracted
total). -/
def checkDuplicateBody (extractedData : ExtractedData) (userId : String)
    (expensesDb : Except String (List Expense)) : Except String DuplicateVerdict :=
  let existingExpenses := getUserExpenses expensesDb userId
  if existingExpenses.isEmpty then
    .ok { is_duplicate := false, confidence := 0,
          message := "No existing expenses to compare against" }
  else
    match extractedData.total_amount with
    | .error err => .error err
    | .ok receiptAmount =>
      let receiptMerchant := normalizeMerchant extractedData.merchant
      let receiptDate := parseDateMicros extractedData.date
      if receiptMerchant = "" || receiptAmount ≤ 0 || receiptDate = none then
        .ok { is_duplicate := false, confidence := 0,
              message := "Insufficient data for duplicate detection" }
      else
        .ok (duplicateVerdictOf
          (duplicateCandidates receiptMerchant receiptAmount receiptDate existingExpenses))

/-- `check_duplicate_expense`: the body with its outer `except` handler,
which converts any raised exception into a no-duplicate verdict. -/
def checkDuplicateExpense (extractedData : ExtractedData) (userId : String)
    (expensesDb : Except String (List Expense)) : DuplicateVerdict :=
  match checkDuplicateBody extractedData userId expensesDb with
  | .ok v => v
  | .error e =>
    { is_duplicate := false, confidence := 0,
      error_msg := some ("Duplicate detection failed: " ++ e),
      message := "Could not perform duplicate detection" }

/-! ## Receipt storage
(`PersistentReceiptStorage` over the JSON backend of
`image_storage_service.py`).

The backend's token-to-record dictionary is an association list; timestamps
are microsecond counts (ISO strings round-trip monotonically through
`fromisoformat`); the base64 round-trip of the image payload is the
identity on the stored bytes. -/

/-- A stored receipt record (`receipt_record` dictionary). -/
structure ReceiptRecord where
  token : String
  user_id : String
  filename : String
  image_data : List Nat
  extracted_data : ExtractedData
  created_at : Int
  expires_at : Int
  accessed_count : Nat
  last_accessed : Option Int
  expense_id : Option String
  processing_status : String
  updated_at : Option Int := none

/-- The backend store: a token-keyed association list. -/
abbrev ReceiptStore : Type := List (String × ReceiptRecord)

/-- `JSONReceiptStorage.get_receipt`: dictionary lookup. -/
def backendGet (store : ReceiptStore) (token : String) : Option ReceiptRecord :=
  match store.find? fun p => p.1 = token with
  | some p => some p.2
  | none => none

/-- `JSONReceiptStorage.save_receipt`: `receipts[token] = record`. -/
def backendSave (store : ReceiptStore) (token : String) (record : ReceiptRecord) :
    ReceiptStore :=
  if (store.find? fun p => p.1 = token).isSome then
    store.map fun p => if p.1 = token then (token, record) else p
  else store ++ [(token, record)]

/-- `JSONReceiptStorage.update_receipt`: replace if present, report
success. -/
def backendUpdate (store : ReceiptStore) (token : String) (record : ReceiptRecord) :
    Bool × ReceiptStore :=
  if (store.find? fun p => p.1 = token).isSome then
    (true, store.map fun p => if p.1 = token then (token, record) else p)
  else (false, store)

/-- `JSONReceiptStorage.delete_receipt`: remove if present, report
success. -/
def backendDelete (store : ReceiptStore) (token : String) : Bool × ReceiptStore :=
  if (store.find? fun p => p.1 = token).isSome then
    (true, store.filter fun p => p.1 ≠ token)
  else (false, store)

/-- Storage duration: 24 hours in microseconds. -/
def storageDurationMicros : Int := 24 * 3600 * 1000000

/-- `PersistentReceiptStorage.store_receipt`: build the record with a fresh
token (supplied by the caller, modelling `secrets.token_urlsafe(32)`) and a
24-hour expiry, and save it. -/
def storeReceipt (store : ReceiptStore) (imageData : List Nat) (userId : String)
    (filename : String) (extractedData : ExtractedData) (freshToken : String) (now : Int) :
    String × ReceiptStore :=
  let record : ReceiptRecord :=
    { token := freshToken
      user_id := userId
      filename := filename
      image_data := imageData
      extracted_data := extractedData
      created_at := now
      expires_at := now + storageDurationMicros
      accessed_count := 0
      last_accessed := none
      expense_id := none
      processing_status := "stored" }
  (freshToken, backendSave store freshToken record)

/-- `PersistentReceiptStorage.get_receipt`: lookup, ownership check, expiry
check with eviction on read, then access-count bump written back in the
same operation. -/
def getReceipt (store : ReceiptStore) (token : String) (userId : String) (now : Int) :
    Option ReceiptRecord × ReceiptStore :=
  match backendGet store token with
  | none => (none, store)
  | some record =>
    if record.user_id ≠ userId then (none, store)
    else if now > record.expires_at then
      (none, (backendDelete store token).2)
    else
      let record' := { record with
        accessed_count := record.accessed_count + 1
        last_accessed := some now }
      (some record', (backendUpdate store token record').2)

/-- `PersistentReceiptStorage.update_receipt_expense`: link a receipt to a
created ledger entry and mark it processed. -/
def updateReceiptExpense (store : ReceiptStore) (token : String) (userId : String)
    (expenseId : String) (now : Int) : Bool × ReceiptStore :=
  match backendGet store token with
  | none => (false, store)
  | some record =>
    if record.user_id ≠ userId then (false, store)
    else
      let record' := { record with
        expense_id := some expenseId
        processing_status := "processed"
        updated_at := some now }
      backendUpdate store token record'

/-- `PersistentReceiptStorage.delete_receipt`: owner-scoped delete. -/
def deleteReceipt (store : ReceiptStore) (token : String) (userId : String) :
    Bool × ReceiptStore :=
  match backendGet store token with
  | none => (false, store)
  | some record =>
    if record.user_id ≠ userId then (false, store)
    else backendDelete store token

/-! ## Image validation service (`ImageValidationService`).

Byte strings are `List Nat` (values `< 256`).  Calls into PIL, PyPDF2 and
python-magic are modelled by an oracle bundle `ExternalOracles`; everything
the service computes itself (sizes, extensions, filename repair, byte
scans, resize arithmetic, format choice, layer sequencing) is translated
directly. -/

/-- A pillow image as far as the service inspects it. -/
structure PILImage where
  width : Nat
  height : Nat
  format : String
  mode : String
  pixels : Nat
deriving DecidableEq, Repr

/-- A PyPDF2 document as far as the service inspects it. -/
structure PdfDoc where
  numPages : Nat
  /-- `extract_text()` on the first page: `error` stands for a raised
  exception. -/
  firstPageText : Except String String
  /-- Some page's representation contains `/JS` or `/JavaScript`. -/
  pagesHaveJS : Bool
  isEncrypted : Bool
deriving Repr

/-- External collaborators used by the validator:  python-magic sniffing,
PIL decoding/re-encoding, PyPDF2 parsing, `hash()` and sha256.  An `error`
or `none` result stands for a raised exception. -/
structure ExternalOracles where
  magicSniff : List Nat → Except String String
  pilOpen : List Nat → Option PILImage
  pilLoadRecover : List Nat → Option PILImage
  exifTranspose : PILImage → PILImage
  resizePixels : PILImage → Nat → Nat → Nat
  pasteWhiteBgPixels : PILImage → Nat
  convertRgbPixels : PILImage → Nat
  encodePng : PILImage → List Nat
  encodeJpeg : PILImage → List Nat
  pdfParse : List Nat → Except String PdfDoc
  pyHash : List Nat → Nat
  sha256Hex : List Nat → String

/-- The valid file extensions of `_has_valid_extension`. -/
def validExtensionList : List String :=
  [".jpg", ".jpeg", ".png", ".webp", ".tiff", ".tif", ".pdf", ".bmp", ".gif"]

/-- The image extensions of `_is_image_file`. -/
def imageExtensionList : List String :=
  [".jpg", ".jpeg", ".png", ".webp", ".tiff", ".tif", ".bmp", ".gif"]

/-- Python `str.endswith` on character lists. -/
def endsWithList (l suffixChars : List Char) : Bool :=
  startsWithList suffixChars.reverse l.reverse

/-- `_has_valid_extension`. -/
def hasValidExtension (filename : String) : Bool :=
  validExtensionList.any fun ext => endsWithList (pyLower filename.data) ext.data

/-- `_is_image_file`. -/
def isImageFile (filename : String) : Bool :=
  imageExtensionList.any fun ext => endsWithList (pyLower filename.data) ext.data

/-- Does the filename end in `.pdf` (case-insensitively)? -/
def isPdfFilename (filename : String) : Bool :=
  endsWithList (pyLower filename.data) ".pdf".data

/-- The MIME types accepted by the service (images, including the listed
`image/svg+xml`, plus PDF). -/
def allSupportedTypes : List String :=
  ["image/jpeg", "image/jpg", "image/png", "image/webp", "image/tiff",
   "image/tif", "image/bmp", "image/gif", "image/svg+xml", "application/pdf"]

/-- Characters of `filename` after its last dot, or `none` when it has no
dot (the extension as `mimetypes` splits it). -/
def extensionOf (filename : String) : Option (List Char) :=
  let rec go : List Char → Option (List Char) → Option (List Char)
    | [], acc => acc
    | '.' :: rest, _ => go rest (some (rest.takeWhile fun c => c ≠ '.'))
    | _ :: rest, acc => go rest acc
  go filename.data none

/-- `mimetypes.guess_type` restricted to the extension table relevant to the
uploads this service handles (unknown extensions and extension-less names
give `none`, as `guess_type` gives `None`). -/
def guessType (filename : String) : Option String :=
  match extensionOf filename with
  | none => none
  | some ext =>
    let e := pyLower ext
    if e = "jpg".data || e = "jpeg".data then some "image/jpeg"
    else if e = "png".data then some "image/png"
    else if e = "webp".data then some "image/webp"
    else if e = "tiff".data || e = "tif".data then some "image/tiff"
    else if e = "bmp".data then some "image/bmp"
    else if e = "gif".data then some "image/gif"
    else if e = "pdf".data then some "application/pdf"
    else if e = "svg".data then some "image/svg+xml"
    else if e = "txt".data then some "text/plain"
    else none

/-- `_mime_types_compatible`. -/
def mimeTypesCompatible (detected expected : String) : Bool :=
  detected = expected ||
    [("image/jpeg", "image/jpg"), ("image/tiff", "image/tif"),
     ("application/pdf", "application/x-pdf")].any fun p =>
      (detected = p.1 && expected = p.2) || (detected = p.2 && expected = p.1)

/-- ASCII-lowercase a byte (`bytes.lower()`). -/
def byteLower (b : Nat) : Nat :=
  if 65 ≤ b && b ≤ 90 then b + 32 else b

/-- Byte-string rendering of an ASCII pattern. -/
def asciiBytes (s : String) : List Nat :=
  s.data.map Char.toNat

/-- Substring containment on byte strings. -/
def startsWithBytes : List Nat → List Nat → Bool
  | [], _ => true
  | _ :: _, [] => false
  | p :: ps, c :: cs => p = c && startsWithBytes ps cs

/-- Byte-level `pattern in data`. -/
def containsBytes (needle : List Nat) : List Nat → Bool
  | [] => needle.isEmpty
  | c :: rest => startsWithBytes needle (c :: rest) || containsBytes needle rest

/-- The byte patterns of `_has_suspicious_headers`. -/
def suspiciousHeaderPatterns : List (List Nat) :=
  ["<script", "javascript:", "vbscript:", "onload=", "onerror=", "eval(",
   "document.write", "<iframe", "<object", "<embed"].map asciiBytes

/-- `_has_suspicious_headers`: scan the lowercased first 1024 bytes. -/
def hasSuspiciousHeaders (fileData : List Nat) : Bool :=
  let header := (fileData.take 1024).map byteLower
  suspiciousHeaderPatterns.any fun pat => containsBytes pat header

/-- Fueled UTF-8 decoding step; every step consumes at least one byte, so
fuel equal to the byte count suffices. -/
def decodeUtf8IgnoreFuel : Nat → List Nat → List Char
  | 0, _ => []
  | _, [] => []
  | fuel + 1, b :: rest =>
    if b < 0x80 then Char.ofNat b :: decodeUtf8IgnoreFuel fuel rest
    else if 0xc2 ≤ b && b ≤ 0xdf then
      match rest with
      | c1 :: rest' =>
        if 0x80 ≤ c1 && c1 ≤ 0xbf then
          Char.ofNat ((b - 0xc0) * 64 + (c1 - 0x80)) :: decodeUtf8IgnoreFuel fuel rest'
        else decodeUtf8IgnoreFuel fuel rest
      | [] => []
    else if 0xe0 ≤ b && b ≤ 0xef then
      match rest with
      | c1 :: c2 :: rest' =>
        let lo1 := if b = 0xe0 then 0xa0 else 0x80
        let hi1 := if b = 0xed then 0x9f else 0xbf
        if (lo1 ≤ c1 && c1 ≤ hi1) && (0x80 ≤ c2 && c2 ≤ 0xbf) then
          Char.ofNat ((b - 0xe0) * 4096 + (c1 - 0x80) * 64 + (c2 - 0x80)) ::
            decodeUtf8IgnoreFuel fuel rest'
        else decodeUtf8IgnoreFuel fuel rest
      | _ => []
    else if 0xf0 ≤ b && b ≤ 0xf4 then
      match rest with
      | c1 :: c2 :: c3 :: rest' =>
        let lo1 := if b = 0xf0 then 0x90 else 0x80
        let hi1 := if b = 0xf4 then 0x8f else 0xbf
        if (lo1 ≤ c1 && c1 ≤ hi1) && (0x80 ≤ c2 && c2 ≤ 0xbf) && (0x80 ≤ c3 && c3 ≤ 0xbf) then
          Char.ofNat ((b - 0xf0) * 262144 + (c1 - 0x80) * 4096 + (c2 - 0x80) * 64 +
              (c3 - 0x80)) :: decodeUtf8IgnoreFuel fuel rest'
        else decodeUtf8IgnoreFuel fuel rest
      | _ => []
    else decodeUtf8IgnoreFuel fuel rest

/-- Total UTF-8 decoding with `errors="ignore"`: well-formed sequences
decode, malformed bytes are dropped one at a time (CPython behaviour). -/
def decodeUtf8Ignore (l : List Nat) : List Char :=
  decodeUtf8IgnoreFuel l.length l

/-- The text patterns of `_contains_embedded_scripts`. -/
def scriptPatternList : List String :=
  ["javascript:", "vbscript:", "<script", "</script>", "eval(",
   "document.write", "window.location", "alert(", "confirm(", "prompt("]

/-- `_contains_embedded_scripts`: decode the bytes ignoring errors,
lowercase, and search for script patterns. -/
def containsEmbeddedScripts (fileData : List Nat) : Bool :=
  let content := pyLower (decodeUtf8Ignore fileData)
  scriptPatternList.any fun pat => containsSub pat.data content

/-- Result of one validation layer / of the whole validator. -/
structure ValidationResult where
  valid : Bool
  errorTitle : String := ""
  reason : String := ""
  sanitized_data : List Nat := []
  mime_type : String := ""
  file_hash : String := ""
  is_image : Bool := false
  is_pdf : Bool := false
  corrected_filename : String := ""
  needs_resize : Bool := false
  has_text : Bool := false

/-- `_detect_image_format`: decode the bytes and map the PIL format name to
an extension, defaulting to `jpg`; `None` when decoding raises. -/
def detectImageFormat (o : ExternalOracles) (fileData : List Nat) : Option String :=
  match o.pilOpen fileData with
  | none => none
  | some img =>
    if img.format = "JPEG" then some "jpg"
    else if img.format = "PNG" then some "png"
    else if img.format = "WEBP" then some "webp"
    else if img.format = "TIFF" then some "tiff"
    else if img.format = "BMP" then some "bmp"
    else if img.format = "GIF" then some "gif"
    else some "jpg"

/-- Characters of `filename` before its last dot when it has one
(`filename.rsplit(".", 1)[0]`), else the whole name. -/
def baseNameBeforeLastDot (l : List Char) : List Char :=
  if l.contains '.' then (l.reverse.dropWhile fun c => c ≠ '.').tail.reverse
  else l

/-- `_validate_basic_properties`: reject inputs under 100 bytes; inputs over
`max_file_size` only produce a console warning and are allowed through;
missing or extension-less filenames are repaired (but the repaired name is
only reported back, see `validateFile`). -/
def validateBasicProperties (o : ExternalOracles) (fileData : List Nat) (filename : String) :
    ValidationResult :=
  if fileData.length < 100 then
    { valid := false, errorTitle := "File too small",
      reason := "File appears to be empty or corrupted" }
  else
    let fn1 :=
      if pyStripS filename = "" then
        "upload_" ++ toString (o.pyHash (fileData.take 100) % 10000) ++ ".jpg"
      else filename
    let fn2 :=
      if hasValidExtension fn1 then fn1
      else
        match detectImageFormat o fileData with
        | some fmt => ⟨baseNameBeforeLastDot fn1.data⟩ ++ "." ++ fmt
        | none => fn1 ++ ".jpg"
    { valid := true, corrected_filename := fn2 }

/-- `_validate_mime_type`: sniff the MIME type from content, require it in
the supported set, and require compatibility with the extension-implied
type when the extension implies one. -/
def validateMimeType (o : ExternalOracles) (fileData : List Nat) (filename : String) :
    ValidationResult :=
  match o.magicSniff fileData with
  | .error _ =>
    { valid := false, errorTitle := "MIME type detection failed",
      reason := "Could not determine file type" }
  | .ok detectedMime =>
    if !allSupportedTypes.contains detectedMime then
      { valid := false, errorTitle := "Unsupported file type",
        reason := "Detected MIME type is not supported" }
    else
      match guessType filename with
      | some expectedMime =>
        if !mimeTypesCompatible detectedMime expectedMime then
          { valid := false, errorTitle := "File type mismatch",
            reason := "File extension and content disagree" }
        else { valid := true, mime_type := detectedMime }
      | none => { valid := true, mime_type := detectedMime }

/-- `_validate_image_structure`: decode with PIL, accept any dimensions
(recording a resize flag), with a best-effort recovery retry on decode
failure. -/
def validateImageStructure (o : ExternalOracles) (imageData : List Nat) : ValidationResult :=
  match o.pilOpen imageData with
  | some img =>
    let needsResize :=
      if max img.width img.height > 2048 then true
      else min img.width img.height < 200 && max img.width img.height < 200
    { valid := true, needs_resize := needsResize }
  | none =>
    match o.pilLoadRecover imageData with
    | some _ => { valid := true, needs_resize := true }
    | none =>
      { valid := false, errorTitle := "Invalid image file",
        reason := "Image file is corrupted and cannot be recovered" }

/-- `_validate_pdf_structure`: page count in `[1, 10]`; a successful
first-page text extraction under 10 stripped characters is rejected, while
a raising text extraction is allowed through. -/
def validatePdfStructure (o : ExternalOracles) (pdfData : List Nat) : ValidationResult :=
  match o.pdfParse pdfData with
  | .error _ =>
    { valid := false, errorTitle := "Invalid PDF file",
      reason := "PDF file is corrupted or invalid" }
  | .ok doc =>
    if doc.numPages = 0 then
      { valid := false, errorTitle := "Empty PDF", reason := "PDF file contains no pages" }
    else if doc.numPages > 10 then
      { valid := false, errorTitle := "PDF too large",
        reason := "PDF has too many pages, maximum 10 allowed for receipts" }
    else
      match doc.firstPageText with
      | .ok text =>
        if (pyStripS text).length < 10 then
          { valid := false, errorTitle := "PDF contains no readable text",
            reason := "PDF appears to contain only images or is corrupted" }
        else { valid := true, has_text := (pyStripS text).length > 10 }
      | .error _ => { valid := true, has_text := false }

/-- `_validate_file_structure`: dispatch on the (original) filename. -/
def validateFileStructure (o : ExternalOracles) (fileData : List Nat) (filename : String) :
    ValidationResult :=
  if isImageFile filename then validateImageStructure o fileData
  else if isPdfFilename filename then validatePdfStructure o fileData
  else
    { valid := false, errorTitle := "Unknown file type",
      reason := "File type not recognized for structure validation" }

/-- `_auto_resize_image`: downscale above 2048 px, upscale below 200 px
(`int` of the float scale arithmetic is the floor for these nonnegative
values). -/
def autoResizeImage (o : ExternalOracles) (img : PILImage) : PILImage :=
  let w := img.width
  let h := img.height
  if max w h > 2048 then
    let nw := if w > h then 2048 else w * 2048 / h
    let nh := if w > h then h * 2048 / w else 2048
    { img with width := nw, height := nh, pixels := o.resizePixels img nw nh }
  else if max w h < 200 then
    let nw := w * 200 / max w h
    let nh := h * 200 / max w h
    { img with width := nw, height := nh, pixels := o.resizePixels img nw nh }
  else img

/-- `_should_save_as_png`: palette/alpha modes, or aspect ratio beyond
2:1. -/
def shouldSaveAsPng (img : PILImage) : Bool :=
  img.mode = "RGBA" || img.mode = "LA" || img.mode = "P" ||
    img.width > img.height * 2 || img.height > img.width * 2

/-- `_sanitize_image`: strip metadata by `exif_transpose`, auto-resize,
flatten alpha onto white / convert to RGB, and re-encode as PNG or JPEG.
A raising decode (or the division by zero of the upscale branch on a
degenerate zero-dimension image) is caught and reported as a sanitization
failure. -/
def sanitizeImage (o : ExternalOracles) (imageData : List Nat) : ValidationResult :=
  match o.pilOpen imageData with
  | none =>
    { valid := false, errorTitle := "Image sanitization failed",
      reason := "Could not process image" }
  | some img0 =>
    let img1 := o.exifTranspose img0
    if max img1.width img1.height = 0 then
      { valid := false, errorTitle := "Image sanitization failed",
        reason := "Could not process image" }
    else
      let img2 := autoResizeImage o img1
      let img3 :=
        if img2.mode ≠ "RGB" && img2.mode ≠ "L" then
          if img2.mode = "RGBA" then
            { img2 with mode := "RGB", pixels := o.pasteWhiteBgPixels img2 }
          else { img2 with mode := "RGB", pixels := o.convertRgbPixels img2 }
        else img2
      let sanitized := if shouldSaveAsPng img3 then o.encodePng img3 else o.encodeJpeg img3
      { valid := true, sanitized_data := sanitized }

/-- `_scan_pdf_security`: reject PDFs with JavaScript actions or
encryption; a raising scan is conservatively a rejection. -/
def scanPdfSecurity (o : ExternalOracles) (pdfData : List Nat) : ValidationResult :=
  match o.pdfParse pdfData with
  | .error _ =>
    { valid := false, errorTitle := "PDF security scan failed",
      reason := "Could not verify PDF security" }
  | .ok doc =>
    if doc.pagesHaveJS then
      { valid := false, errorTitle := "PDF contains JavaScript",
        reason := "PDF files with JavaScript are not allowed" }
    else if doc.isEncrypted then
      { valid := false, errorTitle := "Encrypted PDF not allowed",
        reason := "Encrypted PDF files are not supported" }
    else { valid := true }

/-- `_security_scan`: byte-pattern scans plus the PDF-specific scan. -/
def securityScan (o : ExternalOracles) (fileData : List Nat) (filename : String) :
    ValidationResult :=
  if hasSuspiciousHeaders fileData then
    { valid := false, errorTitle := "Suspicious file content",
      reason := "File contains suspicious headers or signatures" }
  else if containsEmbeddedScripts fileData then
    { valid := false, errorTitle := "Potentially malicious content",
      reason := "File may contain embedded scripts or malicious code" }
  else if isPdfFilename filename then scanPdfSecurity o fileData
  else { valid := true }

/-- `validate_file`: the five layers in order, short-circuiting on the
first failure.  Note that every layer after the first receives the
original `filename`: the repaired `corrected_filename` of layer 1 is
computed but never threaded onward. -/
def validateFile (o : ExternalOracles) (fileData : List Nat) (filename : String) :
    ValidationResult :=
  let basic := validateBasicProperties o fileData filename
  if !basic.valid then basic
  else
    let mime := validateMimeType o fileData filename
    if !mime.valid then mime
    else
      let structure' := validateFileStructure o fileData filename
      if !structure'.valid then structure'
      else
        let afterSanitize : ValidationResult ⊕ List Nat :=
          if isImageFile filename then
            let s := sanitizeImage o fileData
            if !s.valid then .inl s else .inr s.sanitized_data
          else .inr fileData
        match afterSanitize with
        | .inl s => s
        | .inr data' =>
          let scan := securityScan o data' filename
          if !scan.valid then scan
          else
            { valid := true
              sanitized_data := data'
              mime_type := mime.mime_type
              file_hash := o.sha256Hex data'
              is_image := isImageFile filename
              is_pdf := isPdfFilename filename }

/-! ## Pipeline orchestrator (`upload_receipt` in `main.py`).

The authenticity check (`ocr_service.validate_receipt_before_storage`) and
the extraction collaborator (`ocr_service.extract_receipt_data`) are
network calls, passed in as functions of the sanitized bytes and filename.
Fresh identifiers from `secrets.token_urlsafe` are caller-supplied.  The
decision conjunction is short-circuiting, so the `total_amount` comparison
(which raises on a non-numeric payload) is only evaluated once the
confidence gate has passed; such a raise surfaces as the endpoint's generic
500 error after the receipt was already stored. -/

/-- Result of the receipt-authenticity collaborator. -/
structure AuthResult where
  valid : Bool
  errorTitle : String := ""
  reason : String := ""

/-- Mutable application state touched by an upload: the expense ledger and
the receipt store. -/
structure AppState where
  expenses : List Expense
  receipts : ReceiptStore

/-- The outcome returned to the upload caller. -/
inductive UploadOutcome where
  | validationRejected (errorTitle reason : String)
  | authRejected (errorTitle reason : String)
  | notReceipt
  | duplicateFound (existing : Option Expense) (confidence : ℚ)
  | autoCreated (expense : Expense) (token : String) (confidence : ℚ)
  | pendingReview (token : String) (confidence : ℚ) (warnings : List String)
  | serverError
deriving DecidableEq

/-- `upload_receipt`: the six pipeline steps in order. -/
def uploadReceipt (o : ExternalOracles) (authCheck : List Nat → String → AuthResult)
    (extractOracle : List Nat → String → ExtractedData) (fileData : List Nat)
    (filename : String) (userId : String) (st : AppState)
    (freshToken freshExpenseId : String) (now : Int) (nowIso : String) :
    UploadOutcome × AppState :=
  let validation := validateFile o fileData filename
  if !validation.valid then
    (.validationRejected validation.errorTitle validation.reason, st)
  else
    let sanitizedData := validation.sanitized_data
    let receiptValidation := authCheck sanitizedData filename
    if !receiptValidation.valid then
      (.authRejected receiptValidation.errorTitle receiptValidation.reason, st)
    else
      let extractedData := extractOracle sanitizedData filename
      if !extractedData.is_receipt then (.notReceipt, st)
      else
        let duplicateCheck := checkDuplicateExpense extractedData userId (.ok st.expenses)
        if duplicateCheck.is_duplicate then
          (.duplicateFound duplicateCheck.existing_expense duplicateCheck.confidence, st)
        else
          let stored := storeReceipt st.receipts sanitizedData userId filename
            extractedData freshToken now
          let imageToken := stored.1
          let store1 := stored.2
          let confidence := extractedData.confidence
          let decision : Except String Bool :=
            if confidence < 8 / 10 then .ok false
            else
              match extractedData.total_amount with
              | .error e => .error e
              | .ok amt =>
                .ok (amt > 0 && pyStripS extractedData.merchant ≠ "" &&
                  extractedData.validation_warnings.length = 0)
          match decision with
          | .error _ => (.serverError, { st with receipts := store1 })
          | .ok shouldAutoCreate =>
            if shouldAutoCreate then
              let amt := match extractedData.total_amount with | .ok a => a | .error _ => 0
              let expense : Expense :=
                { id := freshExpenseId
                  user_id := userId
                  description := extractedData.merchant
                  amount := amt
                  category := extractedData.category
                  date := extractedData.date
                  payment_method := extractedData.payment_method
                  notes := "Auto-created from receipt"
                  receipt_token := some imageToken
                  created_at := nowIso
                  updated_at := nowIso }
              let store2 := (updateReceiptExpense store1 imageToken userId freshExpenseId now).2
              (.autoCreated expense imageToken confidence,
               { expenses := st.expenses ++ [expense], receipts := store2 })
            else
              (.pendingReview imageToken confidence extractedData.validation_warnings,
               { st with receipts := store1 })

/-! ## Helper lemmas about the storage backend -/

/-- Filtering a token away makes `find?` for it fail. -/
theorem find_filter_ne_none (store : ReceiptStore) (token : String) :
    ((store.filter fun p => p.1 ≠ token).find? fun p => p.1 = token) = none := by
  induction store with
  | nil => rfl
  | cons hd tl ih =>
    by_cases he : hd.1 = token
    · simp [List.filter_cons, he, ih]
    · simp [List.filter_cons, he, List.find?_cons, ih]

/-- Replacing a token pointwise makes `find?` for it return the
replacement, provided the token occurs. -/
theorem find_map_replace (store : ReceiptStore) (token : String) (r : ReceiptRecord)
    (h : (store.find? fun p => p.1 = token).isSome) :
    ((store.map fun p => if p.1 = token then (token, r) else p).find? fun p => p.1 = token) =
      some (token, r) := by
  induction store with
  | nil => simp at h
  | cons hd tl ih =>
    by_cases he : hd.1 = token
    · simp [List.find?_cons, he]
    · have h' : (tl.find? fun p => p.1 = token).isSome := by
        simpa [List.find?_cons, he] using h
      simpa [List.find?_cons, he] using ih h'

/-- After a backend delete, the deleted token is absent. -/
theorem backendGet_delete_self (store : ReceiptStore) (token : String) :
    backendGet ((backendDelete store token).2) token = none := by
  unfold backendDelete
  rcases hf : store.find? fun p => p.1 = token with _ | p
  · simp only [hf, Option.isSome_none, Bool.false_eq_true, if_false]
    unfold backendGet
    rw [hf]
  · simp only [hf, Option.isSome_some, if_true]
    unfold backendGet
    rw [find_filter_ne_none]

/-- After a backend update of a present token, the lookup returns the new
record. -/
theorem backendGet_update_self (store : ReceiptStore) (token : String) (r : ReceiptRecord)
    (h : (store.find? fun p => p.1 = token).isSome) :
    backendGet ((backendUpdate store token r).2) token = some r := by
  unfold backendUpdate
  simp only [h, if_true]
  unfold backendGet
  rw [find_map_replace store token r h]

/-- A successful `backendGet` means `find?` succeeds. -/
theorem backendGet_isSome_find (store : ReceiptStore) (token : String) (r : ReceiptRecord)
    (h : backendGet store token = some r) :
    (store.find? fun p => p.1 = token).isSome := by
  unfold backendGet at h
  rcases hf : store.find? fun p => p.1 = token with _ | p
  · rw [hf] at h; exact absurd h (by simp)
  · rw [hf]; rfl

/-! ## C3: owner-scoped, expiring read with access tracking -/

/-- C3.  `get_receipt` returns `None` exactly when the token is unknown,
the stored owner differs, or the current time is past `expires_at`; in the
expired case the record is deleted from the backend as part of the read;
and on every successful read the returned and stored record carries
`access_count` incremented by one and `last_accessed` set to the read
time. -/
theorem getReceipt_owner_expiry_spec (store : ReceiptStore) (token userId : String)
    (now : Int) :
    ((getReceipt store token userId now).1 = none ↔
      backendGet store token = none ∨
        (∃ r, backendGet store token = some r ∧ r.user_id ≠ userId) ∨
        (∃ r, backendGet store token = some r ∧ now > r.expires_at)) ∧
    (∀ r, backendGet store token = some r → r.user_id = userId → now > r.expires_at →
      backendGet ((getReceipt store token userId now).2) token = none) ∧
    (∀ r, backendGet store token = some r → r.user_id = userId → ¬now > r.expires_at →
      (getReceipt store token userId now).1 =
          some { r with accessed_count := r.accessed_count + 1, last_accessed := some now } ∧
        backendGet ((getReceipt store token userId now).2) token =
          some { r with accessed_count := r.accessed_count + 1, last_accessed := some now }) := by
  refine ⟨?_, ?_, ?_⟩
  · unfold getReceipt
    rcases h : backendGet store token with _ | r
    · simp
    · by_cases hu : r.user_id = userId
      · by_cases he : now > r.expires_at
        · simp [hu, he]
        · simp [hu, he]
      · simp [hu]
  · intro r h hu he
    have hstep : getReceipt store token userId now = (none, (backendDelete store token).2) := by
      unfold getReceipt
      rw [h]
      simp [hu, he]
    rw [hstep]
    exact backendGet_delete_self store token
  · intro r h hu he
    have hstep : getReceipt store token userId now =
        (some { r with accessed_count := r.accessed_count + 1, last_accessed := some now },
         (backendUpdate store token
            { r with accessed_count := r.accessed_count + 1, last_accessed := some now }).2) := by
      unfold getReceipt
      rw [h]
      simp [hu, he]
    rw [hstep]
    exact ⟨rfl, backendGet_update_self store token _ (backendGet_isSome_find store token r h)⟩

/-- A fresh unexpired record used by the C3 witness. -/
def c3Record : ReceiptRecord :=
  { token := "t1", user_id := "alice", filename := "r.jpg", image_data := [1, 2],
    extracted_data := {}, created_at := 0, expires_at := 50, accessed_count := 3,
    last_accessed := none, expense_id := none, processing_status := "stored" }

/-- C3 witness: a concrete store exercising the successful-read branch. -/
theorem getReceipt_owner_expiry_spec_witness :
    (getReceipt [("t1", c3Record)] "t1" "alice" 7).1 =
      some { c3Record with accessed_count := 4, last_accessed := some (7 : Int) } :=
  ((getReceipt_owner_expiry_spec [("t1", c3Record)] "t1" "alice" 7).2.2 c3Record rfl rfl
    (by decide)).1

/-! ## C4: the link operation -/

/-- An expired, already-linked record owned by alice. -/
def c4Record : ReceiptRecord :=
  { token := "tok1", user_id := "alice", filename := "r.jpg", image_data := [9],
    extracted_data := {}, created_at := 0, expires_at := 10, accessed_count := 1,
    last_accessed := some 5, expense_id := some "exp1", processing_status := "processed" }

/-- A store holding only that record. -/
def c4Store : ReceiptStore := [("tok1", c4Record)]

/-- C4 counterexample.  At time 100 the record is expired (`expires_at` is
10) and already linked to `exp1`, yet `update_receipt_expense` succeeds and
replaces the link with `exp2` — contradicting both the claimed failure on
expired records and the claimed refusal of a second link. -/
theorem updateReceiptExpense_claim_counterexample :
    (100 : Int) > c4Record.expires_at ∧
    c4Record.expense_id = some "exp1" ∧
    (updateReceiptExpense c4Store "tok1" "alice" "exp2" 100).1 = true ∧
    (backendGet (updateReceiptExpense c4Store "tok1" "alice" "exp2" 100).2 "tok1").map
        (fun r => r.expense_id) = some (some "exp2") := by
  refine ⟨by decide, rfl, rfl, rfl⟩

/-- C4 as amended.  `update_receipt_expense` returns `false` exactly when
the record is absent or owned by a different user — expiry is not checked —
and on success it sets (overwriting any previous link)
`linked_ledger_entry_id` and marks the record processed. -/
theorem updateReceiptExpense_spec (store : ReceiptStore) (token userId expenseId : String)
    (now : Int) :
    ((updateReceiptExpense store token userId expenseId now).1 = false ↔
      backendGet store token = none ∨
        (∃ r, backendGet store token = some r ∧ r.user_id ≠ userId)) ∧
    (∀ r, backendGet store token = some r → r.user_id = userId →
      (updateReceiptExpense store token userId expenseId now).1 = true ∧
        backendGet ((updateReceiptExpense store token userId expenseId now).2) token =
          some { r with expense_id := some expenseId, processing_status := "processed",
                        updated_at := some now }) := by
  constructor
  · unfold updateReceiptExpense
    rcases h : backendGet store token with _ | r
    · simp
    · by_cases hu : r.user_id = userId
      · have hfind := backendGet_isSome_find store token r h
        simp [hu, backendUpdate, hfind, h]
      · simp [hu, h]
  · intro r h hu
    have hfind := backendGet_isSome_find store token r h
    have hstep : updateReceiptExpense store token userId expenseId now =
        backendUpdate store token
          { r with expense_id := some expenseId, processing_status := "processed",
                   updated_at := some now } := by
      unfold updateReceiptExpense
      rw [h]
      simp [hu]
    rw [hstep]
    refine ⟨?_, backendGet_update_self store token _ hfind⟩
    unfold backendUpdate
    simp [hfind]

/-- C4 amended-claim witness: linking a present, owner-matching record
succeeds and records the link. -/
theorem updateReceiptExpense_spec_witness :
    (updateReceiptExpense c4Store "tok1" "alice" "exp9" 3).1 = true ∧
      backendGet ((updateReceiptExpense c4Store "tok1" "alice" "exp9" 3).2) "tok1" =
        some { c4Record with expense_id := some "exp9", processing_status := "processed",
                             updated_at := some (3 : Int) } :=
  (updateReceiptExpense_spec c4Store "tok1" "alice" "exp9" 3).2 c4Record rfl rfl

/-! ## Concrete oracles for the validation claims -/

/-- A decodable 800 by 600 PNG as PIL reports it. -/
def pngImage : PILImage :=
  { width := 800, height := 600, format := "PNG", mode := "RGB", pixels := 0 }

/-- Oracles describing a well-formed PNG upload. -/
def pngOracles : ExternalOracles :=
  { magicSniff := fun _ => .ok "image/png"
    pilOpen := fun _ => some pngImage
    pilLoadRecover := fun _ => none
    exifTranspose := id
    resizePixels := fun _ _ _ => 0
    pasteWhiteBgPixels := fun _ => 0
    convertRgbPixels := fun _ => 0
    encodePng := fun _ => List.replicate 120 7
    encodeJpeg := fun _ => List.replicate 120 8
    pdfParse := fun _ => .error "not a pdf"
    pyHash := fun _ => 0
    sha256Hex := fun _ => "deadbeef" }

/-! ## C5: the size layer -/

/-- C5 counterexample.  An input of `50 MiB + 1` bytes is not rejected at
the size layer: `_validate_basic_properties` only prints a warning for
oversized files and returns a valid result. -/
theorem validateBasic_oversize_counterexample :
    50 * 1024 * 1024 < (List.replicate (50 * 1024 * 1024 + 1) 37).length ∧
    (validateBasicProperties pngOracles (List.replicate (50 * 1024 * 1024 + 1) 37)
        "a.jpg").valid = true := by
  constructor
  · rw [List.length_replicate]
    omega
  · unfold validateBasicProperties
    rw [List.length_replicate, if_neg (by omega)]

/-- C5 as amended.  The basic-properties layer rejects exactly the inputs
shorter than 100 bytes (reporting the size-stage error), and in particular
inputs larger than 50 MiB pass it. -/
theorem validateBasic_size_spec (o : ExternalOracles) (fileData : List Nat)
    (filename : String) :
    ((validateBasicProperties o fileData filename).valid = false ↔ fileData.length < 100) ∧
    (fileData.length < 100 →
      (validateBasicProperties o fileData filename).errorTitle = "File too small") := by
  constructor
  · unfold validateBasicProperties
    by_cases h : fileData.length < 100
    · simp [h]
    · simp [h]
  · intro h
    unfold validateBasicProperties
    simp [h]

/-- C5 amended-claim witness: a 10-byte input is rejected as too small. -/
theorem validateBasic_size_spec_witness :
    (List.replicate 10 0).length < 100 ∧
      (validateBasicProperties pngOracles (List.replicate 10 0) "a.jpg").errorTitle =
        "File too small" :=
  ⟨by decide, (validateBasic_size_spec pngOracles (List.replicate 10 0) "a.jpg").2 (by decide)⟩

/-! ## C6: low-text PDFs at the structure layer -/

/-- Oracles describing a structurally valid one-page PDF whose first-page
text extraction succeeds but yields no text. -/
def lowTextPdfOracles : ExternalOracles :=
  { pngOracles with
    magicSniff := fun _ => .ok "application/pdf"
    pilOpen := fun _ => none
    pdfParse := fun _ =>
      .ok { numPages := 1, firstPageText := .ok "", pagesHaveJS := false,
            isEncrypted := false } }

/-- C6 counterexample.  A structurally valid PDF whose first-page text
extraction succeeds with fewer than 10 characters is rejected at the
structure stage, not passed through with a low-text signal. -/
theorem validatePdf_lowText_counterexample :
    (validatePdfStructure lowTextPdfOracles (List.replicate 200 1)).valid = false ∧
    (validatePdfStructure lowTextPdfOracles (List.replicate 200 1)).errorTitle =
      "PDF contains no readable text" := by
  constructor <;> rfl

/-- C6 as amended.  For a PDF with a valid page count, a successful
first-page text extraction of fewer than 10 stripped characters is fatal at
the structure stage, while a raising text extraction lets the PDF through
with `has_text = false`. -/
theorem validatePdf_lowText_spec (o : ExternalOracles) (pdfData : List Nat) (doc : PdfDoc)
    (hparse : o.pdfParse pdfData = .ok doc) (hpages1 : 1 ≤ doc.numPages)
    (hpages10 : doc.numPages ≤ 10) :
    (∀ t, doc.firstPageText = .ok t → (pyStripS t).length < 10 →
      (validatePdfStructure o pdfData).valid = false ∧
        (validatePdfStructure o pdfData).errorTitle = "PDF contains no readable text") ∧
    (∀ e, doc.firstPageText = .error e →
      (validatePdfStructure o pdfData).valid = true ∧
        (validatePdfStructure o pdfData).has_text = false) := by
  have hz : doc.numPages ≠ 0 := by omega
  have hgt : ¬doc.numPages > 10 := by omega
  constructor
  · intro t ht hlen
    unfold validatePdfStructure
    rw [hparse]
    simp [hz, hgt, ht, hlen]
  · intro e he
    unfold validatePdfStructure
    rw [hparse]
    simp [hz, hgt, he]

/-- The raising-text-extraction PDF document. -/
def raisingTextPdfDoc : PdfDoc :=
  { numPages := 1, firstPageText := .error "boom", pagesHaveJS := false,
    isEncrypted := false }

/-- Oracles whose PDF text extraction raises. -/
def raisingTextPdfOracles : ExternalOracles :=
  { lowTextPdfOracles with pdfParse := fun _ => .ok raisingTextPdfDoc }

/-- C6 amended-claim witness, covering both the fatal low-text branch and
the raising-extraction branch. -/
theorem validatePdf_lowText_spec_witness :
    ((validatePdfStructure lowTextPdfOracles []).valid = false ∧
      (validatePdfStructure lowTextPdfOracles []).errorTitle =
        "PDF contains no readable text") ∧
    ((validatePdfStructure raisingTextPdfOracles []).valid = true ∧
      (validatePdfStructure raisingTextPdfOracles []).has_text = false) :=
  ⟨(validatePdf_lowText_spec lowTextPdfOracles [] _ rfl (by decide) (by decide)).1 ""
      rfl (by decide),
   (validatePdf_lowText_spec raisingTextPdfOracles [] raisingTextPdfDoc rfl (by decide)
      (by decide)).2 "boom" rfl⟩

/-! ## C8: the repaired filename is dropped -/

/-- A 150-byte upload body for the extension-less scenario. -/
def c8Data : List Nat := List.replicate 150 137

/-- C8 (code bug).  For the extension-less filename `receipt` over decodable
PNG bytes, layer 1 repairs the name to `receipt.png`, but `validate_file`
keeps threading the original name, so layer 3 rejects the upload as an
unknown file type — the repaired name never reaches the rest of the
pipeline. -/
theorem validateFile_droppedRepair_bug :
    (validateBasicProperties pngOracles c8Data "receipt").valid = true ∧
    (validateBasicProperties pngOracles c8Data "receipt").corrected_filename =
      "receipt.png" ∧
    (validateMimeType pngOracles c8Data "receipt").valid = true ∧
    (validateFile pngOracles c8Data "receipt").valid = false ∧
    (validateFile pngOracles c8Data "receipt").errorTitle = "Unknown file type" := by
  refine ⟨?_, ?_, ?_, ?_, ?_⟩ <;> · set_option maxRecDepth 20000 in decide

/-! ## Structural lemmas about the normalization pipeline

These culminate in `normalizeMerchant_renormalize_contained`: renormalizing
an already-normalized merchant name yields a prefix of it (so the
containment branch of `_calculate_merchant_similarity` fires whenever the
exact-match branch does not). -/

/-- `dropWhile` removes a prefix: the result is a `drop`. -/
theorem dropWhile_as_drop (p : Char → Bool) (l : List Char) :
    ∃ k, l.dropWhile p = l.drop k := by
  induction l with
  | nil => exact ⟨0, rfl⟩
  | cons c t ih =>
    by_cases hc : p c
    · obtain ⟨k, hk⟩ := ih
      exact ⟨k + 1, by simpa [List.dropWhile_cons, hc] using hk⟩
    · exact ⟨0, by simp [List.dropWhile_cons, hc]⟩

/-- The head surviving `dropWhile` fails the predicate. -/
theorem dropWhile_head_false (p : Char → Bool) (l : List Char) (c : Char) (t : List Char)
    (h : l.dropWhile p = c :: t) : p c = false := by
  induction l with
  | nil => simp at h
  | cons a r ih =>
    by_cases ha : p a
    · exact ih (by simpa [List.dropWhile_cons, ha] using h)
    · rw [List.dropWhile_cons] at h
      simp only [ha, if_false] at h
      cases h
      simpa using ha

/-- `dropWhile` is a no-op when the head already fails the predicate. -/
theorem dropWhile_noop (p : Char → Bool) (l : List Char)
    (h : ∀ c t, l = c :: t → p c = false) : l.dropWhile p = l := by
  cases l with
  | nil => rfl
  | cons c t => simp [List.dropWhile_cons, h c t rfl]

/-- `dropWhile` is idempotent. -/
theorem dropWhile_idem (p : Char → Bool) (l : List Char) :
    (l.dropWhile p).dropWhile p = l.dropWhile p := by
  apply dropWhile_noop
  intro c t h
  exact dropWhile_head_false p l c t h

/-- Stripping trailing characters (through a reverse round-trip) yields a
`take`. -/
theorem revStrip_as_take (p : Char → Bool) (l : List Char) :
    ∃ j, ((l.reverse.dropWhile p).reverse) = l.take j := by
  obtain ⟨k, hk⟩ := dropWhile_as_drop p l.reverse
  refine ⟨l.length - k, ?_⟩
  rw [hk, List.reverse_drop, List.reverse_reverse, List.length_reverse]

/-- `pyStrip` of any list is a `take` of a `dropWhile`. -/
theorem pyStrip_shape (l : List Char) :
    ∃ j, pyStrip l = (l.dropWhile pyIsSpace).take j := by
  obtain ⟨j, hj⟩ := revStrip_as_take pyIsSpace (l.dropWhile pyIsSpace)
  exact ⟨j, by simpa [pyStrip] using hj⟩

/-- Members of `pyStrip l` are members of `l`. -/
theorem mem_of_mem_pyStrip {c : Char} {l : List Char} (h : c ∈ pyStrip l) : c ∈ l := by
  obtain ⟨j, hj⟩ := pyStrip_shape l
  rw [hj] at h
  exact (List.dropWhile_sublist pyIsSpace).mem ((List.take_sublist j _).mem h)

/-- `pyStrip` is idempotent. -/
theorem pyStrip_idem (l : List Char) : pyStrip (pyStrip l) = pyStrip l := by
  have hdw : (pyStrip l).dropWhile pyIsSpace = pyStrip l := by
    apply dropWhile_noop
    intro c t hct
    obtain ⟨j, hj⟩ := pyStrip_shape l
    rw [hj] at hct
    rcases hdrop : l.dropWhile pyIsSpace with _ | ⟨a, r⟩
    · rw [hdrop] at hct; simp at hct
    · rw [hdrop] at hct
      cases j with
      | zero => simp at hct
      | succ j' =>
        rw [List.take_succ_cons] at hct
        cases hct
        exact dropWhile_head_false pyIsSpace l c _ hdrop
  have hrev : (pyStrip l).reverse.dropWhile pyIsSpace = (pyStrip l).reverse := by
    have h1 : (pyStrip l).reverse = (l.dropWhile pyIsSpace).reverse.dropWhile pyIsSpace := by
      unfold pyStrip
      rw [List.reverse_reverse]
    rw [h1, dropWhile_idem]
  have hdef : ∀ m : List Char,
      pyStrip m = ((m.dropWhile pyIsSpace).reverse.dropWhile pyIsSpace).reverse := fun _ => rfl
  rw [hdef (pyStrip l), hdw, hrev, List.reverse_reverse]

/-- `pyStrip` of a `take` of a leading-stripped list is a `take` of it. -/
theorem pyStrip_take (l : List Char) (n : Nat) (hhead : l.dropWhile pyIsSpace = l) :
    ∃ j, pyStrip (l.take n) = l.take j := by
  have hdw : (l.take n).dropWhile pyIsSpace = l.take n := by
    apply dropWhile_noop
    intro c t hct
    cases l with
    | nil => simp at hct
    | cons a r =>
      cases n with
      | zero => simp at hct
      | succ n' =>
        rw [List.take_succ_cons] at hct
        cases hct
        exact dropWhile_head_false pyIsSpace (c :: r) c _ hhead
  obtain ⟨j, hj⟩ := revStrip_as_take pyIsSpace (l.take n)
  refine ⟨j ⊓ n, ?_⟩
  have hdef : ∀ m : List Char,
      pyStrip m = ((m.dropWhile pyIsSpace).reverse.dropWhile pyIsSpace).reverse := fun _ => rfl
  rw [hdef (l.take n), hdw, hj, List.take_take]

/-- The suffix-word substitution removes a suffix: its result is a `take`. -/
theorem applySub1_as_take (l : List Char) : ∃ n, applySub1 l = l.take n := by
  induction l with
  | nil => exact ⟨0, rfl⟩
  | cons c rest ih =>
    by_cases h : sub1Match (c :: rest)
    · exact ⟨0, by simp [applySub1, h]⟩
    · obtain ⟨n, hn⟩ := ih
      exact ⟨n + 1, by simp [applySub1, h, hn]⟩

/-- The location-code substitution is a no-op on hash-free lists. -/
theorem applySub2_noop (l : List Char) (h : '#' ∉ l) : applySub2 l = l := by
  induction l with
  | nil => rfl
  | cons c rest ih =>
    have hm : sub2Match (c :: rest) = false := by
      rcases hs : pyStrip (c :: rest) with _ | ⟨a, t⟩
      · simp [sub2Match, hs]
      · by_cases ha : a = '#'
        · exfalso
          apply h
          have : a ∈ pyStrip (c :: rest) := by rw [hs]; exact List.mem_cons_self a t
          rw [ha] at this
          exact mem_of_mem_pyStrip this
        · simp [sub2Match, hs, ha]
    have hrest : '#' ∉ rest := fun hr => h (List.mem_cons_of_mem c hr)
    simp [applySub2, hm, ih hrest]

/-- The dash substitution is a no-op on dash-free lists. -/
theorem applySub3_noop (l : List Char) (h : '-' ∉ l) : applySub3 l = l := by
  induction l with
  | nil => rfl
  | cons c rest ih =>
    have hdash : ∀ u, (c :: rest).dropWhile pyIsSpace = '-' :: u → False := by
      intro u hu
      apply h
      have : '-' ∈ (c :: rest).dropWhile pyIsSpace := by
        rw [hu]; exact List.mem_cons_self '-' u
      exact (List.dropWhile_sublist pyIsSpace).mem this
    have hf : sub3MatchFull (c :: rest) = false := by
      unfold sub3MatchFull
      rcases hd : (c :: rest).dropWhile pyIsSpace with _ | ⟨a, u⟩
      · rfl
      · by_cases ha : a = '-'
        · exact absurd (ha ▸ hd) fun hh => hdash u hh
        · simp [ha]
    have hn : sub3MatchNl (c :: rest) = false := by
      unfold sub3MatchNl
      rcases hd : (c :: rest).dropWhile pyIsSpace with _ | ⟨a, u⟩
      · rfl
      · by_cases ha : a = '-'
        · exact absurd (ha ▸ hd) fun hh => hdash u hh
        · simp [ha]
    have hrest : '-' ∉ rest := fun hr => h (List.mem_cons_of_mem c hr)
    simp [applySub3, hf, hn, ih hrest]

/-- Members of `applySub1 l` are members of `l`. -/
theorem mem_of_mem_applySub1 {c : Char} {l : List Char} (h : c ∈ applySub1 l) : c ∈ l := by
  obtain ⟨n, hn⟩ := applySub1_as_take l
  rw [hn] at h
  exact (List.take_sublist n l).mem h

/-- Members of `applySub2 l` are members of `l`. -/
theorem mem_of_mem_applySub2 {c : Char} {l : List Char} (h : c ∈ applySub2 l) : c ∈ l := by
  induction l with
  | nil => simp [applySub2] at h
  | cons a rest ih =>
    rcases hm : sub2Match (a :: rest) with _ | _
    · rw [show applySub2 (a :: rest) = a :: applySub2 rest by simp [applySub2, hm]] at h
      rcases List.mem_cons.mp h with h' | h'
      · exact h' ▸ List.mem_cons_self a rest
      · exact List.mem_cons_of_mem a (ih h')
    · rw [show applySub2 (a :: rest) = [] by simp [applySub2, hm]] at h
      simp at h

/-- Members of `applySub3 l` are members of `l` or the surviving final
newline. -/
theorem mem_of_mem_applySub3 {c : Char} {l : List Char} (h : c ∈ applySub3 l) :
    c ∈ l ∨ c = '\n' := by
  induction l with
  | nil => simp [applySub3] at h
  | cons a rest ih =>
    rcases hf : sub3MatchFull (a :: rest) with _ | _
    · rcases hn : sub3MatchNl (a :: rest) with _ | _
      · rw [show applySub3 (a :: rest) = a :: applySub3 rest by
            simp [applySub3, hf, hn]] at h
        rcases List.mem_cons.mp h with h' | h'
        · exact Or.inl (h' ▸ List.mem_cons_self a rest)
        · rcases ih h' with h'' | h''
          · exact Or.inl (List.mem_cons_of_mem a h'')
          · exact Or.inr h''
      · rw [show applySub3 (a :: rest) = ['\n'] by simp [applySub3, hf, hn]] at h
        exact Or.inr (List.mem_singleton.mp h)
    · rw [show applySub3 (a :: rest) = [] by simp [applySub3, hf]] at h
      simp at h

/-- Members of `squeezeWs l` are members of `l`. -/
theorem mem_of_mem_squeezeWs {c : Char} : ∀ {l : List Char}, c ∈ squeezeWs l → c ∈ l
  | [], h => by simp [squeezeWs] at h
  | [a], h => by simpa [squeezeWs] using h
  | a :: b :: rest, h => by
    unfold squeezeWs at h
    by_cases hab : pyIsSpace a && pyIsSpace b
    · rw [if_pos hab] at h
      exact List.mem_cons_of_mem a (mem_of_mem_squeezeWs h)
    · rw [if_neg hab] at h
      rcases List.mem_cons.mp h with h' | h'
      · exact h' ▸ List.mem_cons_self a _
      · exact List.mem_cons_of_mem a (mem_of_mem_squeezeWs h')

/-- ASCII lowercasing is idempotent. -/
theorem toLower_toLower (c : Char) : c.toLower.toLower = c.toLower := by
  unfold Char.toLower
  by_cases h : c.toNat ≥ 65 ∧ c.toNat ≤ 90
  · have hval : (c.toNat + 32).isValidChar := by
      left
      omega
    have htn : (Char.ofNat (c.toNat + 32)).toNat = c.toNat + 32 := by
      unfold Char.ofNat
      rw [dif_pos hval]
      simp [Char.ofNatAux, Char.toNat, UInt32.toNat, BitVec.toNat_ofNatLt]
    rw [if_pos h, htn]
    have : ¬(c.toNat + 32 ≥ 65 ∧ c.toNat + 32 ≤ 90) := by omega
    rw [if_neg this]
  · rw [if_neg h, if_neg h]

/-- No two adjacent whitespace characters (the invariant established by the
whitespace-collapsing step of the normalizer). -/
inductive NoAdjWs : List Char → Prop
  | nil : NoAdjWs []
  | single (c : Char) : NoAdjWs [c]
  | cons (a b : Char) (r : List Char) : ¬(pyIsSpace a = true ∧ pyIsSpace b = true) →
      NoAdjWs (b :: r) → NoAdjWs (a :: b :: r)

/-- Tails of no-adjacent-whitespace lists keep the property. -/
theorem NoAdjWs.tail {a : Char} {l : List Char} (h : NoAdjWs (a :: l)) : NoAdjWs l := by
  cases h with
  | single => exact NoAdjWs.nil
  | cons _ _ _ _ ht => exact ht

/-- Extend on the left when the pair formed with the head is allowed. -/
theorem noAdjWs_cons (a : Char) (l : List Char) (h : NoAdjWs l)
    (hhead : ∀ b t, l = b :: t → ¬(pyIsSpace a = true ∧ pyIsSpace b = true)) :
    NoAdjWs (a :: l) := by
  cases l with
  | nil => exact NoAdjWs.single a
  | cons b t => exact NoAdjWs.cons a b t (hhead b t rfl) h

/-- `take` preserves the invariant. -/
theorem NoAdjWs.take {l : List Char} (h : NoAdjWs l) : ∀ n, NoAdjWs (l.take n) := by
  induction h with
  | nil => intro n; simpa using NoAdjWs.nil
  | single c =>
    intro n
    cases n with
    | zero => exact NoAdjWs.nil
    | succ n' => simpa using NoAdjWs.single c
  | cons a b r hab _ ih =>
    intro n
    match n with
    | 0 => exact NoAdjWs.nil
    | 1 => exact NoAdjWs.single a
    | n' + 2 =>
      rw [List.take_succ_cons, List.take_succ_cons]
      exact NoAdjWs.cons a b _ hab (by simpa [List.take_succ_cons] using ih (n' + 1))

/-- `drop` preserves the invariant. -/
theorem NoAdjWs.dropN {l : List Char} (h : NoAdjWs l) : ∀ n, NoAdjWs (l.drop n) := by
  induction l with
  | nil => intro n; simpa using NoAdjWs.nil
  | cons a t ih =>
    intro n
    cases n with
    | zero => exact h
    | succ n' => exact ih h.tail n'

/-- `dropWhile` preserves the invariant. -/
theorem NoAdjWs.dropWhileP (p : Char → Bool) {l : List Char} (h : NoAdjWs l) :
    NoAdjWs (l.dropWhile p) := by
  obtain ⟨k, hk⟩ := dropWhile_as_drop p l
  rw [hk]
  exact h.dropN k

/-- Whitespace-preserving maps keep the invariant. -/
theorem NoAdjWs.mapWs (g : Char → Char) (hg : ∀ c, pyIsSpace (g c) = pyIsSpace c)
    {l : List Char} (h : NoAdjWs l) : NoAdjWs (l.map g) := by
  induction h with
  | nil => exact NoAdjWs.nil
  | single c => exact NoAdjWs.single (g c)
  | cons a b r hab _ ih =>
    refine NoAdjWs.cons (g a) (g b) (r.map g) ?_ ih
    rw [hg a, hg b]
    exact hab

/-- A non-whitespace head survives `squeezeWs`. -/
theorem squeezeWs_head (b : Char) (r : List Char) (hb : pyIsSpace b = false) :
    ∃ t, squeezeWs (b :: r) = b :: t := by
  cases r with
  | nil => exact ⟨[], rfl⟩
  | cons c r' =>
    refine ⟨squeezeWs (c :: r'), ?_⟩
    conv_lhs => rw [squeezeWs.eq_def]
    change (if (pyIsSpace b && pyIsSpace c) = true then squeezeWs (c :: r')
      else b :: squeezeWs (c :: r')) = b :: squeezeWs (c :: r')
    rw [if_neg (by simp [hb])]

/-- The output of `squeezeWs` has no two adjacent whitespace characters. -/
theorem noAdjWs_squeezeWs : ∀ l : List Char, NoAdjWs (squeezeWs l)
  | [] => NoAdjWs.nil
  | [c] => NoAdjWs.single c
  | a :: b :: rest => by
    unfold squeezeWs
    rcases hab : pyIsSpace a && pyIsSpace b with _ | _
    · rw [if_neg (by simp [hab])]
      refine noAdjWs_cons a _ (noAdjWs_squeezeWs (b :: rest)) ?_
      intro c t hct hpair
      rcases hpa : pyIsSpace a with _ | _
      · exact absurd hpair.1 (by simp [hpa])
      · have hpb : pyIsSpace b = false := by
          rcases hpb : pyIsSpace b with _ | _
          · rfl
          · rw [hpa, hpb] at hab; simp at hab
        obtain ⟨t', ht'⟩ := squeezeWs_head b rest hpb
        rw [ht'] at hct
        cases hct
        exact absurd hpair.2 (by simp [hpb])
    · rw [if_pos (by simp_all)]
      exact noAdjWs_squeezeWs (b :: rest)

/-- `squeezeWs` is a no-op on lists already free of adjacent whitespace. -/
theorem squeezeWs_noop {l : List Char} (h : NoAdjWs l) : squeezeWs l = l := by
  induction h with
  | nil => rfl
  | single c => rfl
  | cons a b r hab _ ih =>
    unfold squeezeWs
    rw [if_neg (by simpa using hab), ih]

/-- A map that fixes every member is a no-op. -/
theorem map_noop (g : Char → Char) (l : List Char) (h : ∀ c ∈ l, g c = c) :
    l.map g = l := by
  induction l with
  | nil => rfl
  | cons a t ih =>
    rw [List.map_cons, h a (List.mem_cons_self a t),
      ih fun c hc => h c (List.mem_cons_of_mem a hc)]

/-- A whitespace character is not a word character. -/
theorem wordChar_not_space {c : Char} (h : pyIsSpace c = true) : isWordChar c = false := by
  unfold pyIsSpace at h
  simp only [Bool.or_eq_true, decide_eq_true_eq] at h
  rcases h with ((((h | h) | h) | h) | h) | h <;> subst h <;> decide

/-- Members of the normalized merchant name are word characters or plain
spaces. -/
theorem normalizeMerchant_mem {c : Char} {m : List Char}
    (h : c ∈ normalizeMerchantList m) : isWordChar c = true ∨ c = ' ' := by
  unfold normalizeMerchantList at h
  have h1 := mem_of_mem_pyStrip h
  unfold mapSpaceToBlank at h1
  rw [List.mem_map] at h1
  obtain ⟨c', hc', hg⟩ := h1
  have h2 := mem_of_mem_squeezeWs hc'
  unfold mapWordSpace at h2
  rw [List.mem_map] at h2
  obtain ⟨y, _, hf⟩ := h2
  subst hg
  subst hf
  by_cases hw : (isWordChar y || pyIsSpace y) = true
  · rw [if_pos hw]
    by_cases hs : pyIsSpace y = true
    · rw [if_pos hs]
      exact Or.inr rfl
    · rw [if_neg hs]
      rcases Bool.or_eq_true_iff.mp hw with h' | h'
      · exact Or.inl h'
      · exact absurd h' hs
  · rw [if_neg hw]
    rw [if_pos (by decide)]
    exact Or.inr rfl

/-- Members of the normalized merchant name are fixed by lowercasing. -/
theorem normalizeMerchant_mem_lower {c : Char} {m : List Char}
    (h : c ∈ normalizeMerchantList m) : c.toLower = c := by
  unfold normalizeMerchantList at h
  have h1 := mem_of_mem_pyStrip h
  unfold mapSpaceToBlank at h1
  rw [List.mem_map] at h1
  obtain ⟨c', hc', hg⟩ := h1
  have h2 := mem_of_mem_squeezeWs hc'
  unfold mapWordSpace at h2
  rw [List.mem_map] at h2
  obtain ⟨y, hy, hf⟩ := h2
  have hyfix : y.toLower = y := by
    rcases mem_of_mem_applySub3 hy with hy2 | hy2
    · have hy3 := mem_of_mem_applySub2 hy2
      have hy4 := mem_of_mem_applySub1 hy3
      have hy5 := mem_of_mem_pyStrip hy4
      unfold pyLower at hy5
      rw [List.mem_map] at hy5
      obtain ⟨z, _, hz⟩ := hy5
      rw [← hz]
      exact toLower_toLower z
    · subst hy2
      decide
  subst hg
  subst hf
  by_cases hw : (isWordChar y || pyIsSpace y) = true
  · rw [if_pos hw]
    by_cases hs : pyIsSpace y = true
    · rw [if_pos hs]
      decide
    · rw [if_neg hs]
      exact hyfix
  · rw [if_neg hw, if_pos (by decide)]
    decide

/-- The normalized merchant name is already stripped. -/
theorem normalizeMerchant_strip (m : List Char) :
    pyStrip (normalizeMerchantList m) = normalizeMerchantList m := by
  unfold normalizeMerchantList
  exact pyStrip_idem _

/-- The normalized merchant name has no two adjacent whitespace
characters. -/
theorem normalizeMerchant_noAdj (m : List Char) : NoAdjWs (normalizeMerchantList m) := by
  unfold normalizeMerchantList
  have hsq := noAdjWs_squeezeWs (mapWordSpace
    (applySub3 (applySub2 (applySub1 (pyStrip (pyLower m))))))
  have hmap : NoAdjWs (mapSpaceToBlank (squeezeWs (mapWordSpace
      (applySub3 (applySub2 (applySub1 (pyStrip (pyLower m)))))))) := by
    unfold mapSpaceToBlank
    refine hsq.mapWs _ fun c => ?_
    by_cases hs : pyIsSpace c = true
    · rw [if_pos hs, hs]
      decide
    · rw [if_neg hs]
  obtain ⟨j, hj⟩ := pyStrip_shape (mapSpaceToBlank (squeezeWs (mapWordSpace
    (applySub3 (applySub2 (applySub1 (pyStrip (pyLower m))))))))
  rw [hj]
  exact (hmap.dropWhileP pyIsSpace).take j

/-- A list fully stripped of leading whitespace already starts with a
non-whitespace character. -/
theorem dropWhile_self_of_pyStrip_self {l : List Char} (h : pyStrip l = l) :
    l.dropWhile pyIsSpace = l := by
  obtain ⟨j, hj⟩ := pyStrip_shape l
  obtain ⟨k, hk⟩ := dropWhile_as_drop pyIsSpace l
  rw [hj, hk] at h
  have hlen := congrArg List.length h
  rw [List.length_take, List.length_drop] at hlen
  have hk0 : k = 0 ∨ l.length = 0 := by omega
  rcases hk0 with hk0 | hl0
  · rw [hk, hk0, List.drop_zero]
  · rw [List.length_eq_zero] at hl0
    subst hl0
    rfl

/-- Renormalizing an already-normalized merchant name yields a `take` of
it. -/
theorem normalizeMerchant_renormalize_take (m : List Char) :
    ∃ k, normalizeMerchantList (normalizeMerchantList m) =
      (normalizeMerchantList m).take k := by
  set norm := normalizeMerchantList m with hnormdef
  have hmem : ∀ c ∈ norm, isWordChar c = true ∨ c = ' ' := fun c hc =>
    normalizeMerchant_mem hc
  have hlow : pyLower norm = norm :=
    map_noop _ _ fun c hc => normalizeMerchant_mem_lower hc
  have hstrip : pyStrip norm = norm := normalizeMerchant_strip m
  obtain ⟨a, ha⟩ := applySub1_as_take norm
  have hmemTake : ∀ c ∈ norm.take a, isWordChar c = true ∨ c = ' ' := fun c hc =>
    hmem c ((List.take_sublist a norm).mem hc)
  have hsub2 : applySub2 (norm.take a) = norm.take a := by
    apply applySub2_noop
    intro hin
    rcases hmemTake '#' hin with h' | h' <;> exact absurd h' (by decide)
  have hsub3 : applySub3 (norm.take a) = norm.take a := by
    apply applySub3_noop
    intro hin
    rcases hmemTake '-' hin with h' | h' <;> exact absurd h' (by decide)
  have hmapf : mapWordSpace (norm.take a) = norm.take a := by
    unfold mapWordSpace
    apply map_noop
    intro c hc
    rcases hmemTake c hc with h' | h'
    · rw [if_pos (by simp [h'])]
    · subst h'
      rw [if_pos (by decide)]
  have hsq : squeezeWs (norm.take a) = norm.take a :=
    squeezeWs_noop ((normalizeMerchant_noAdj m).take a)
  have hmapg : mapSpaceToBlank (norm.take a) = norm.take a := by
    unfold mapSpaceToBlank
    apply map_noop
    intro c hc
    rcases hmemTake c hc with h' | h'
    · have hs : pyIsSpace c = false := by
        rcases hps : pyIsSpace c with _ | _
        · rfl
        · exact absurd h' (by simp [wordChar_not_space hps])
      rw [if_neg (by simp [hs])]
    · subst h'
      rw [if_pos (by decide)]
  obtain ⟨j, hj⟩ := pyStrip_take norm a (dropWhile_self_of_pyStrip_self hstrip)
  refine ⟨j, ?_⟩
  calc normalizeMerchantList norm
      = pyStrip (mapSpaceToBlank (squeezeWs (mapWordSpace
          (applySub3 (applySub2 (applySub1 (pyStrip (pyLower norm)))))))) := rfl
    _ = pyStrip (mapSpaceToBlank (squeezeWs (mapWordSpace
          (applySub3 (applySub2 (norm.take a)))))) := by rw [hlow, hstrip, ha]
    _ = pyStrip (norm.take a) := by rw [hsub2, hsub3, hmapf, hsq, hmapg]
    _ = norm.take j := hj

/-- A `take` of a list starts the list. -/
theorem startsWithList_take (l : List Char) (n : Nat) :
    startsWithList (l.take n) l = true := by
  induction l generalizing n with
  | nil => cases n <;> rfl
  | cons a t ih =>
    cases n with
    | zero => rfl
    | succ n' =>
      rw [List.take_succ_cons]
      simp [startsWithList, ih]

/-- A `take` of a list is contained in it. -/
theorem containsSub_take (l : List Char) (n : Nat) : containsSub (l.take n) l = true := by
  cases l with
  | nil => cases n <;> rfl
  | cons a t =>
    unfold containsSub
    rw [startsWithList_take (a :: t) n]
    rfl

/-- Renormalizing a normalized merchant name yields a fragment contained in
it: together with the exact-match branch this makes the merchant score at
least 0.9 whenever the extraction merchant and the ledger description are
the same string. -/
theorem normalizeMerchant_renormalize_contained (m : List Char) :
    containsSub (normalizeMerchantList (normalizeMerchantList m))
      (normalizeMerchantList m) = true := by
  obtain ⟨k, hk⟩ := normalizeMerchant_renormalize_take m
  rw [hk]
  exact containsSub_take _ k

/-! ## The best match dominates every candidate -/

/-- The head of an insertion bounds the inserted element. -/
theorem insertByScoreDesc_head (x : Expense × SimilarityScore)
    (l : List (Expense × SimilarityScore)) :
    ∃ h t, insertByScoreDesc x l = h :: t ∧ x.2.total_score ≤ h.2.total_score := by
  cases l with
  | nil => exact ⟨x, [], rfl, le_refl _⟩
  | cons y ys =>
    by_cases hy : y.2.total_score > x.2.total_score
    · exact ⟨y, insertByScoreDesc x ys, by simp [insertByScoreDesc, hy], le_of_lt hy⟩
    · exact ⟨x, y :: ys, by simp [insertByScoreDesc, hy], le_refl _⟩

/-- The head of the sorted candidate list bounds every member. -/
theorem sortByScoreDesc_head_ge (l : List (Expense × SimilarityScore))
    (x : Expense × SimilarityScore) (hx : x ∈ l) :
    ∃ h t, sortByScoreDesc l = h :: t ∧ x.2.total_score ≤ h.2.total_score := by
  induction l with
  | nil => simp at hx
  | cons y ys ih =>
    rcases List.mem_cons.mp hx with h | h
    · subst h
      obtain ⟨hd, tl, heq, hle⟩ := insertByScoreDesc_head x (sortByScoreDesc ys)
      exact ⟨hd, tl, by rw [sortByScoreDesc, heq], hle⟩
    · obtain ⟨hd, tl, heq, hle⟩ := ih h
      by_cases hy : hd.2.total_score > y.2.total_score
      · refine ⟨hd, insertByScoreDesc y tl, ?_, hle⟩
        rw [sortByScoreDesc, heq]
        simp [insertByScoreDesc, hy]
      · refine ⟨y, hd :: tl, ?_, le_trans hle (not_lt.mp hy)⟩
        rw [sortByScoreDesc, heq]
        simp [insertByScoreDesc, hy]

/-! ## C7: identical merchant, amount and date -/

/-- The extraction of the C7 counterexample: a merchant whose normalized
form is unstable under renormalization ("joe shop store" normalizes to
"joe shop", which renormalizes to "joe"). -/
def c7Extracted : ExtractedData :=
  { merchant := "joe shop store", total_amount := .ok 10, date := "2024-01-15" }

/-- The identical ledger entry for the C7 counterexample. -/
def c7Expense : Expense :=
  { id := "e1", user_id := "u1", description := "joe shop store", amount := 10,
    date := "2024-01-15" }

/-- C7 counterexample.  A ledger entry whose description, amount and date
are *identical* to the extraction yields `is_duplicate = true` but
confidence `0.95`, not `1.0`: `check_duplicate_expense` normalizes the
receipt merchant once before `_calculate_merchant_similarity` normalizes
both arguments again, so the doubly-normalized merchant ("joe") no longer
equals the once-normalized description ("joe shop") and scores 0.9 in the
containment branch instead of 1.0. -/
theorem checkDuplicate_identical_counterexample :
    c7Expense.description = c7Extracted.merchant ∧
    c7Expense.amount = 10 ∧ c7Extracted.total_amount = .ok 10 ∧
    c7Expense.date = c7Extracted.date ∧
    (checkDuplicateExpense c7Extracted "u1" (.ok [c7Expense])).is_duplicate = true ∧
    (checkDuplicateExpense c7Extracted "u1" (.ok [c7Expense])).confidence = 19 / 20 := by
  refine ⟨rfl, rfl, rfl, rfl, ?_, ?_⟩ <;>
    · set_option maxRecDepth 40000 in with_unfolding_all decide

/-- C7 as amended.  For every owner ledger containing an entry whose
description, amount and date are identical to the extraction (with a
non-blank normalized merchant, positive amount and parseable date), the
duplicate check returns `is_duplicate = true` with confidence at least
0.95; the confidence is exactly 1.0 when the normalized merchant is stable
under a second normalization and 0.95 otherwise. -/
theorem checkDuplicate_identical_entry_spec (extracted : ExtractedData) (e : Expense)
    (db : List Expense) (userId : String) (amt : ℚ) (dt : PyDateTime)
    (hmem : e ∈ db) (huser : e.user_id = userId)
    (hdesc : e.description = extracted.merchant)
    (hamtX : extracted.total_amount = .ok amt) (hamtE : e.amount = amt) (hpos : 0 < amt)
    (hdateX : parseDate extracted.date = some dt) (hdateE : e.date = extracted.date)
    (hnorm : normalizeMerchant extracted.merchant ≠ "") :
    (checkDuplicateExpense extracted userId (.ok db)).is_duplicate = true ∧
      19 / 20 ≤ (checkDuplicateExpense extracted userId (.ok db)).confidence := by
  have hmerchne : extracted.merchant ≠ "" := by
    intro h0
    exact hnorm (by rw [h0]; rfl)
  set rm := normalizeMerchant extracted.merchant with hrm
  set rd := parseDateMicros extracted.date with hrddef
  have hrdval : rd = some dt.micros := by
    rw [hrddef]
    unfold parseDateMicros
    rw [hdateX]
    rfl
  -- the self-similarity score
  set s := calcSimilarity rm amt rd e with hsdef
  have hms : calcMerchantSimilarity rm e.description = 1 ∨
      calcMerchantSimilarity rm e.description = 9 / 10 := by
    unfold calcMerchantSimilarity
    rw [if_neg (by simp [hdesc, hmerchne, hrm, hnorm])]
    have hdN : normalizeMerchantList e.description.data =
        normalizeMerchantList extracted.merchant.data := by rw [hdesc]
    have hmN : normalizeMerchantList rm.data =
        normalizeMerchantList (normalizeMerchantList extracted.merchant.data) := by
      rw [hrm]
      rfl
    by_cases heq : normalizeMerchantList rm.data = normalizeMerchantList e.description.data
    · rw [if_pos heq]
      exact Or.inl rfl
    · rw [if_neg heq]
      rw [if_pos]
      · exact Or.inr rfl
      · rw [hdN, hmN]
        rw [normalizeMerchant_renormalize_contained extracted.merchant.data]
        simp
  have hamtsim : calcAmountSimilarity amt e.amount = 1 := by
    unfold calcAmountSimilarity
    rw [hamtE]
    rw [if_neg (by simp [not_le.mpr hpos])]
    rw [if_pos (by simp [sub_self])]
  have hdatesim : calcDateSimilarity rd (parseDateMicros e.date) = 1 := by
    rw [hdateE, ← hrddef, hrdval]
    unfold calcDateSimilarity
    simp [Int.sub_self, Int.zero_fdiv]
  have hts : s.total_score = 1 ∨ s.total_score = 19 / 20 := by
    rw [hsdef]
    unfold calcSimilarity
    rcases hms with hms' | hms'
    · left
      rw [hms', hamtsim, hdatesim]
      norm_num
    · right
      rw [hms', hamtsim, hdatesim]
      norm_num
  have hts95 : 19 / 20 ≤ s.total_score := by
    rcases hts with h' | h'
    · rw [h']
      norm_num
    · rw [h']
  -- membership in the candidate list
  set existing := getUserExpenses (.ok db) userId with hexdef
  have hein : e ∈ existing := by
    rw [hexdef]
    unfold getUserExpenses
    exact List.mem_filter.mpr ⟨hmem, by simp [huser]⟩
  have hne : existing.isEmpty = false := by
    rcases hx : existing with _ | _
    · rw [hx] at hein; simp at hein
    · rfl
  have hcand : (e, s) ∈ duplicateCandidates rm amt rd existing := by
    unfold duplicateCandidates
    refine List.mem_filterMap.mpr ⟨e, hein, ?_⟩
    rw [← hsdef]
    rw [if_pos (by rcases hts with h' | h' <;> rw [h'] <;> norm_num)]
  obtain ⟨best, rest, hsort, hge⟩ :=
    sortByScoreDesc_head_ge (duplicateCandidates rm amt rd existing) (e, s) hcand
  have hbest95 : (19 : ℚ) / 20 ≤ best.2.total_score := le_trans hts95 hge
  have hverd : duplicateVerdictOf (duplicateCandidates rm amt rd existing) =
      { is_duplicate := true, confidence := best.2.total_score,
        existing_expense := some best.1,
        message := "This receipt appears to already be processed" } := by
    unfold duplicateVerdictOf
    rw [hsort]
    rw [show duplicateVerdictOfSorted (best :: rest) =
        (if best.2.total_score ≥ 85 / 100 then
          { is_duplicate := true, confidence := best.2.total_score,
            existing_expense := some best.1,
            message := "This receipt appears to already be processed" }
        else
          { is_duplicate := false, confidence := best.2.total_score,
            similar_expenses := ((best :: rest).take 3).map fun p => (p.1, p.2.total_score),
            message := "Similar expenses found but not duplicates" }) from rfl]
    rw [if_pos (le_trans (by norm_num) hbest95)]
  have hbody : checkDuplicateBody extracted userId (.ok db) =
      .ok { is_duplicate := true, confidence := best.2.total_score,
            existing_expense := some best.1,
            message := "This receipt appears to already be processed" } := by
    unfold checkDuplicateBody
    rw [← hexdef, hamtX]
    simp only [hne, Bool.false_eq_true, if_false]
    rw [← hrm, ← hrddef]
    rw [if_neg (by simp [hnorm, not_le.mpr hpos, hrdval])]
    rw [hverd]
  unfold checkDuplicateExpense
  rw [hbody]
  exact ⟨rfl, hbest95⟩

/-- A stable-merchant extraction for the C7 witness. -/
def c7StableExtracted : ExtractedData :=
  { merchant := "starbucks", total_amount := .ok 10, date := "2024-01-15" }

/-- The matching ledger entry for the C7 witness. -/
def c7StableExpense : Expense :=
  { id := "e1", user_id := "u1", description := "starbucks", amount := 10,
    date := "2024-01-15" }

/-- C7 amended-claim witness: an identical entry with a stable merchant
name is flagged as a duplicate with confidence at least 0.95. -/
theorem checkDuplicate_identical_entry_spec_witness :
    (checkDuplicateExpense c7StableExtracted "u1" (.ok [c7StableExpense])).is_duplicate =
        true ∧
      19 / 20 ≤ (checkDuplicateExpense c7StableExtracted "u1"
        (.ok [c7StableExpense])).confidence :=
  checkDuplicate_identical_entry_spec c7StableExtracted c7StableExpense [c7StableExpense]
    "u1" 10 { year := 2024, month := 1, day := 15 }
    (List.mem_singleton.mpr rfl) rfl rfl rfl rfl (by norm_num) (by decide) rfl
    (by set_option maxRecDepth 8000 in decide)

/-! ## C9: symmetry of the similarity score -/

/-- Expense with a time-of-day-bearing date for the C9 counterexample. -/
def c9ExpenseLate : Expense :=
  { id := "e1", user_id := "u1", description := "joe", amount := 10,
    date := "2024-01-01T10:00:00" }

/-- Expense at midnight of the same day for the C9 counterexample. -/
def c9ExpenseMidnight : Expense :=
  { id := "e2", user_id := "u1", description := "joe", amount := 10,
    date := "2024-01-01T00:00:00" }

/-- C9 counterexample.  The similarity score is not symmetric: the fuzzy
SequenceMatcher ratio depends on the argument order (6/11 against 4/11 for
"mxpqrs"/"rsmpq"), and the day difference floors the signed timedelta
before taking the absolute value, so two datetimes ten hours apart score
0.9 in one order and 1.0 in the other. -/
theorem similarity_symmetry_counterexample :
    calcMerchantSimilarity "mxpqrs" "rsmpq" = 6 / 11 ∧
    calcMerchantSimilarity "rsmpq" "mxpqrs" = 4 / 11 ∧
    (calcSimilarity "joe" 10 (parseDateMicros "2024-01-01T00:00:00") c9ExpenseLate).total_score
        = 197 / 200 ∧
    (calcSimilarity "joe" 10 (parseDateMicros "2024-01-01T10:00:00")
        c9ExpenseMidnight).total_score = 1 := by
  refine ⟨?_, ?_, ?_, ?_⟩ <;> · set_option maxRecDepth 40000 in with_unfolding_all decide

/-- C9 as amended.  The amount similarity is symmetric unconditionally;
the date similarity is symmetric whenever the two datetimes are a whole
number of days apart; and the merchant similarity is symmetric whenever
the normalized names are equal or one contains the other.  (The fuzzy
branch and sub-day date differences are order-dependent, see the
counterexample.) -/
theorem similarity_symmetry_spec :
    (∀ a b : ℚ, calcAmountSimilarity a b = calcAmountSimilarity b a) ∧
    (∀ d e : Int, microsPerDay ∣ (d - e) →
      calcDateSimilarity (some d) (some e) = calcDateSimilarity (some e) (some d)) ∧
    (∀ s t : String,
      (normalizeMerchantList s.data = normalizeMerchantList t.data ∨
        containsSub (normalizeMerchantList s.data) (normalizeMerchantList t.data) = true ∨
        containsSub (normalizeMerchantList t.data) (normalizeMerchantList s.data) = true) →
      calcMerchantSimilarity s t = calcMerchantSimilarity t s) := by
  refine ⟨?_, ?_, ?_⟩
  · intro a b
    unfold calcAmountSimilarity
    rw [abs_sub_comm a b, add_comm a b, Bool.or_comm (decide (a ≤ 0))]
  · intro d e hdvd
    obtain ⟨k, hk⟩ := hdvd
    have hred : ∀ x y : Int, calcDateSimilarity (some x) (some y) =
        (let dayDiff := ((x - y).fdiv microsPerDay).natAbs
         if dayDiff = 0 then 1
         else if dayDiff ≤ 1 then 9 / 10
         else if dayDiff ≤ 3 then 7 / 10
         else if dayDiff ≤ 7 then 5 / 10
         else if dayDiff ≤ 30 then 2 / 10
         else 0) := fun _ _ => rfl
    have h1 : (d - e).fdiv microsPerDay = k := by
      rw [hk]
      exact Int.mul_fdiv_cancel_left k (by norm_num [microsPerDay])
    have h2 : (e - d).fdiv microsPerDay = -k := by
      have he : e - d = microsPerDay * (-k) := by
        rw [← neg_sub d e, hk]
        ring
      rw [he]
      exact Int.mul_fdiv_cancel_left (-k) (by norm_num [microsPerDay])
    rw [hred, hred, h1, h2, Int.natAbs_neg]
  · intro s t hcont
    unfold calcMerchantSimilarity
    by_cases hs0 : s = ""
    · have hL : (decide (s = "") || decide (t = "")) = true := by simp [hs0]
      have hR : (decide (t = "") || decide (s = "")) = true := by simp [hs0]
      rw [if_pos hL, if_pos hR]
    · by_cases ht0 : t = ""
      · have hL : (decide (s = "") || decide (t = "")) = true := by simp [ht0]
        have hR : (decide (t = "") || decide (s = "")) = true := by simp [ht0]
        rw [if_pos hL, if_pos hR]
      · have hL : ¬(decide (s = "") || decide (t = "")) = true := by simp [hs0, ht0]
        have hR : ¬(decide (t = "") || decide (s = "")) = true := by simp [hs0, ht0]
        rw [if_neg hL, if_neg hR]
        by_cases heq : normalizeMerchantList s.data = normalizeMerchantList t.data
        · rw [if_pos heq, if_pos heq.symm]
        · have hc' : ∀ u v : List Char, containsSub u v = true ∨ containsSub v u = true →
              (containsSub u v || containsSub v u) = true := by
            intro u v h
            rcases h with h | h <;> simp [h]
          have hcc : containsSub (normalizeMerchantList s.data)
                (normalizeMerchantList t.data) = true ∨
              containsSub (normalizeMerchantList t.data)
                (normalizeMerchantList s.data) = true := by
            rcases hcont with h | h | h
            · exact absurd h heq
            · exact Or.inl h
            · exact Or.inr h
          have heqR : ¬normalizeMerchantList t.data = normalizeMerchantList s.data :=
            fun h => heq h.symm
          rw [if_neg heq, if_pos (hc' _ _ hcc), if_neg heqR, if_pos (hc' _ _ (Or.symm hcc))]

/-- C9 amended-claim witness: concrete symmetric instances through the
theorem. -/
theorem similarity_symmetry_spec_witness :
    calcAmountSimilarity 5 7 = calcAmountSimilarity 7 5 ∧
    calcDateSimilarity (some (3 * microsPerDay)) (some 0) =
      calcDateSimilarity (some 0) (some (3 * microsPerDay)) ∧
    calcMerchantSimilarity "starbucks llc" "starbucks" =
      calcMerchantSimilarity "starbucks" "starbucks llc" :=
  ⟨similarity_symmetry_spec.1 5 7,
   similarity_symmetry_spec.2.1 (3 * microsPerDay) 0 ⟨3, by ring⟩,
   similarity_symmetry_spec.2.2 "starbucks llc" "starbucks"
     (Or.inl (by set_option maxRecDepth 8000 in decide))⟩

/-! ## C10: totality of the duplicate check -/

/-- C10.  `check_duplicate_expense` is total at its public interface: a
raising database access yields the empty-ledger no-duplicate verdict, and
any raised exception inside the body (the `float()` conversion of the
extracted total being the raising step after the guarded read) is caught
and converted into a verdict with `is_duplicate = false` and confidence
0.0. -/
theorem checkDuplicate_total_spec (extractedData : ExtractedData) (userId : String)
    (expensesDb : Except String (List Expense)) :
    (∀ msg, expensesDb = .error msg →
      checkDuplicateExpense extractedData userId expensesDb =
        { is_duplicate := false, confidence := 0,
          message := "No existing expenses to compare against" }) ∧
    (∀ err, checkDuplicateBody extractedData userId expensesDb = .error err →
      (checkDuplicateExpense extractedData userId expensesDb).is_duplicate = false ∧
        (checkDuplicateExpense extractedData userId expensesDb).confidence = 0) ∧
    (∀ err, extractedData.total_amount = .error err →
      (getUserExpenses expensesDb userId).isEmpty = false →
      checkDuplicateBody extractedData userId expensesDb = .error err) := by
  refine ⟨?_, ?_, ?_⟩
  · intro msg hdb
    subst hdb
    rfl
  · intro err hbody
    unfold checkDuplicateExpense
    rw [hbody]
    exact ⟨rfl, rfl⟩
  · intro err hamt hne
    unfold checkDuplicateBody
    rw [hamt]
    simp only [hne, Bool.false_eq_true, if_false]

/-- The extraction whose total the `float()` conversion rejects. -/
def c10Extracted : ExtractedData :=
  { merchant := "starbucks", total_amount := .error "bad total", date := "2024-01-15" }

/-- C10 witness: a raising database read and a raising total conversion
both surface as no-duplicate verdicts with confidence 0. -/
theorem checkDuplicate_total_spec_witness :
    (checkDuplicateExpense c10Extracted "u1" (.error "db down") =
      { is_duplicate := false, confidence := 0,
        message := "No existing expenses to compare against" }) ∧
    ((checkDuplicateExpense c10Extracted "u1" (.ok [c7StableExpense])).is_duplicate = false ∧
      (checkDuplicateExpense c10Extracted "u1" (.ok [c7StableExpense])).confidence = 0) :=
  ⟨(checkDuplicate_total_spec c10Extracted "u1" (.error "db down")).1 "db down" rfl,
   (checkDuplicate_total_spec c10Extracted "u1" (.ok [c7StableExpense])).2.1 "bad total"
     ((checkDuplicate_total_spec c10Extracted "u1" (.ok [c7StableExpense])).2.2 "bad total"
       rfl (by decide))⟩

/-! ## C1 and C2: the orchestrator -/

/-- `find?` over an append looks left first. -/
theorem find_append_right (store : ReceiptStore) (token : String) (r : ReceiptRecord)
    (h : (store.find? fun p => p.1 = token) = none) :
    ((store ++ [(token, r)]).find? fun p => p.1 = token) = some (token, r) := by
  induction store with
  | nil => simp [List.find?_cons]
  | cons hd tl ih =>
    by_cases he : hd.1 = token
    · rw [List.find?_cons_of_pos tl (by simp [he])] at h
      simp at h
    · rw [List.find?_cons_of_neg tl (by simp [he])] at h
      rw [List.cons_append, List.find?_cons_of_neg (tl ++ [(token, r)]) (by simp [he])]
      exact ih h

/-- After `save_receipt`, the fresh token resolves to the saved record. -/
theorem backendGet_save_self (store : ReceiptStore) (token : String) (r : ReceiptRecord) :
    backendGet (backendSave store token r) token = some r := by
  unfold backendSave
  rcases hf : store.find? fun p => p.1 = token with _ | p
  · simp only [hf, Option.isSome_none, Bool.false_eq_true, if_false]
    unfold backendGet
    rw [find_append_right store token r hf]
  · simp only [hf, Option.isSome_some, if_true]
    unfold backendGet
    rw [find_map_replace store token r (by rw [hf]; rfl)]

/-- C2.  When the duplicate check reports a duplicate, the pipeline
terminates with the duplicate outcome carrying the best match and its
confidence, the receipt store is untouched (no record created, no token
issued) and the ledger is untouched. -/
theorem uploadReceipt_duplicate_no_store (o : ExternalOracles)
    (authCheck : List Nat → String → AuthResult)
    (extractOracle : List Nat → String → ExtractedData) (fileData : List Nat)
    (filename userId : String) (st : AppState) (freshToken freshExpenseId : String)
    (now : Int) (nowIso : String)
    (hvalid : (validateFile o fileData filename).valid = true)
    (hauth : (authCheck (validateFile o fileData filename).sanitized_data filename).valid =
      true)
    (hrec : (extractOracle (validateFile o fileData filename).sanitized_data
      filename).is_receipt = true)
    (hdup : (checkDuplicateExpense
        (extractOracle (validateFile o fileData filename).sanitized_data filename) userId
        (.ok st.expenses)).is_duplicate = true) :
    uploadReceipt o authCheck extractOracle fileData filename userId st freshToken
        freshExpenseId now nowIso =
      (.duplicateFound
        (checkDuplicateExpense
          (extractOracle (validateFile o fileData filename).sanitized_data filename) userId
          (.ok st.expenses)).existing_expense
        (checkDuplicateExpense
          (extractOracle (validateFile o fileData filename).sanitized_data filename) userId
          (.ok st.expenses)).confidence,
       st) := by
  unfold uploadReceipt
  simp [hvalid, hauth, hrec, hdup]

/-- Oracles describing a clean three-page text PDF upload. -/
def cleanPdfOracles : ExternalOracles :=
  { pngOracles with
    magicSniff := fun _ => .ok "application/pdf"
    pilOpen := fun _ => none
    pdfParse := fun _ =>
      .ok { numPages := 3, firstPageText := .ok "GROCERY RECEIPT TOTAL 24.50",
            pagesHaveJS := false, isEncrypted := false } }

/-- Upload body for the orchestrator witnesses (bytes above the minimum
size, carrying no script patterns). -/
def cleanPdfData : List Nat := List.replicate 150 137

/-- The extraction used by the C2 witness (identical to the stored
starbucks ledger entry, so the duplicate check fires). -/
def c2Extracted : ExtractedData :=
  { merchant := "starbucks", total_amount := .ok 10, date := "2024-01-15",
    confidence := 9 / 10 }

/-- The application state of the C2 witness: one starbucks expense, empty
receipt store. -/
def c2State : AppState := { expenses := [c7StableExpense], receipts := [] }

/-- C2 witness: a duplicate upload terminates with the duplicate outcome
and leaves the state untouched. -/
theorem uploadReceipt_duplicate_no_store_witness :
    uploadReceipt cleanPdfOracles (fun _ _ => { valid := true }) (fun _ _ => c2Extracted)
        cleanPdfData "r.pdf" "u1" c2State "tok" "exp" 0 "t0" =
      (.duplicateFound
        (checkDuplicateExpense c2Extracted "u1" (.ok [c7StableExpense])).existing_expense
        (checkDuplicateExpense c2Extracted "u1" (.ok [c7StableExpense])).confidence,
       c2State) :=
  uploadReceipt_duplicate_no_store cleanPdfOracles _ _ cleanPdfData "r.pdf" "u1" c2State
    "tok" "exp" 0 "t0"
    (by set_option maxRecDepth 40000 in decide)
    rfl rfl
    (by set_option maxRecDepth 40000 in with_unfolding_all decide)

/-- C1.  For every upload that reaches the decision step (validation,
authenticity and plausibility passed, no duplicate, convertible total),
the orchestrator auto-creates a ledger entry iff all four conditions hold:
confidence at least 0.80, positive total, merchant non-blank after
stripping, and empty warnings list.  Otherwise the outcome is the
manual-review response carrying the storage token, the ledger is unchanged
and the stored receipt stays retrievable under the returned token. -/
theorem uploadReceipt_decision_spec (o : ExternalOracles)
    (authCheck : List Nat → String → AuthResult)
    (extractOracle : List Nat → String → ExtractedData) (fileData : List Nat)
    (filename userId : String) (st : AppState) (freshToken freshExpenseId : String)
    (now : Int) (nowIso : String) (amt : ℚ)
    (hvalid : (validateFile o fileData filename).valid = true)
    (hauth : (authCheck (validateFile o fileData filename).sanitized_data filename).valid =
      true)
    (hrec : (extractOracle (validateFile o fileData filename).sanitized_data
      filename).is_receipt = true)
    (hdup : (checkDuplicateExpense
        (extractOracle (validateFile o fileData filename).sanitized_data filename) userId
        (.ok st.expenses)).is_duplicate = false)
    (hamt : (extractOracle (validateFile o fileData filename).sanitized_data
      filename).total_amount = .ok amt) :
    ((8 / 10 ≤ (extractOracle (validateFile o fileData filename).sanitized_data
          filename).confidence ∧ 0 < amt ∧
        pyStripS (extractOracle (validateFile o fileData filename).sanitized_data
          filename).merchant ≠ "" ∧
        (extractOracle (validateFile o fileData filename).sanitized_data
          filename).validation_warnings = []) →
      ∃ expense,
        (uploadReceipt o authCheck extractOracle fileData filename userId st freshToken
            freshExpenseId now nowIso).1 =
          .autoCreated expense freshToken
            (extractOracle (validateFile o fileData filename).sanitized_data
              filename).confidence ∧
        (uploadReceipt o authCheck extractOracle fileData filename userId st freshToken
            freshExpenseId now nowIso).2.expenses = st.expenses ++ [expense] ∧
        expense.user_id = userId ∧
        expense.description = (extractOracle (validateFile o fileData
          filename).sanitized_data filename).merchant ∧
        expense.amount = amt ∧ expense.receipt_token = some freshToken) ∧
    (¬(8 / 10 ≤ (extractOracle (validateFile o fileData filename).sanitized_data
          filename).confidence ∧ 0 < amt ∧
        pyStripS (extractOracle (validateFile o fileData filename).sanitized_data
          filename).merchant ≠ "" ∧
        (extractOracle (validateFile o fileData filename).sanitized_data
          filename).validation_warnings = []) →
      (uploadReceipt o authCheck extractOracle fileData filename userId st freshToken
          freshExpenseId now nowIso).1 =
        .pendingReview freshToken
          (extractOracle (validateFile o fileData filename).sanitized_data
            filename).confidence
          (extractOracle (validateFile o fileData filename).sanitized_data
            filename).validation_warnings ∧
      (uploadReceipt o authCheck extractOracle fileData filename userId st freshToken
          freshExpenseId now nowIso).2.expenses = st.expenses ∧
      (backendGet (uploadReceipt o authCheck extractOracle fileData filename userId st
          freshToken freshExpenseId now nowIso).2.receipts freshToken).isSome = true) ∧
    (∀ expense token conf,
      (uploadReceipt o authCheck extractOracle fileData filename userId st freshToken
          freshExpenseId now nowIso).1 = .autoCreated expense token conf →
      8 / 10 ≤ (extractOracle (validateFile o fileData filename).sanitized_data
          filename).confidence ∧ 0 < amt ∧
        pyStripS (extractOracle (validateFile o fileData filename).sanitized_data
          filename).merchant ≠ "" ∧
        (extractOracle (validateFile o fileData filename).sanitized_data
          filename).validation_warnings = []) := by
  set ex := extractOracle (validateFile o fileData filename).sanitized_data filename
    with hexdef
  by_cases hC : 8 / 10 ≤ ex.confidence ∧ 0 < amt ∧ pyStripS ex.merchant ≠ "" ∧
      ex.validation_warnings = []
  · obtain ⟨hconf, hpos, hmerch, hwarn⟩ := hC
    have hlt : ¬ex.confidence < 8 / 10 := not_lt.mpr hconf
    have hone : ∃ expense,
        (uploadReceipt o authCheck extractOracle fileData filename userId st freshToken
            freshExpenseId now nowIso).1 =
          .autoCreated expense freshToken ex.confidence ∧
        (uploadReceipt o authCheck extractOracle fileData filename userId st freshToken
            freshExpenseId now nowIso).2.expenses = st.expenses ++ [expense] ∧
        expense.user_id = userId ∧ expense.description = ex.merchant ∧
        expense.amount = amt ∧ expense.receipt_token = some freshToken := by
      refine ⟨Expense.mk freshExpenseId userId ex.merchant amt ex.category ex.date
        ex.payment_method "Auto-created from receipt" (some freshToken) nowIso nowIso,
        ?_, ?_, rfl, rfl, rfl, rfl⟩
      · unfold uploadReceipt
        simp [← hexdef, hvalid, hauth, hrec, hdup, hamt, hlt, hpos, hmerch, hwarn,
          storeReceipt]
      · unfold uploadReceipt
        simp [← hexdef, hvalid, hauth, hrec, hdup, hamt, hlt, hpos, hmerch, hwarn,
          storeReceipt]
    exact ⟨fun _ => hone, fun hn => absurd ⟨hconf, hpos, hmerch, hwarn⟩ hn,
      fun _ _ _ _ => ⟨hconf, hpos, hmerch, hwarn⟩⟩
  · have hpend :
        (uploadReceipt o authCheck extractOracle fileData filename userId st freshToken
            freshExpenseId now nowIso).1 =
          .pendingReview freshToken ex.confidence ex.validation_warnings ∧
        (uploadReceipt o authCheck extractOracle fileData filename userId st freshToken
            freshExpenseId now nowIso).2.expenses = st.expenses ∧
        (backendGet (uploadReceipt o authCheck extractOracle fileData filename userId st
            freshToken freshExpenseId now nowIso).2.receipts freshToken).isSome = true := by
      by_cases hconf : 8 / 10 ≤ ex.confidence
      · have hrest : ¬(0 < amt ∧ pyStripS ex.merchant ≠ "" ∧
            ex.validation_warnings = []) := fun hr => hC ⟨hconf, hr⟩
        have hlt : ¬ex.confidence < 8 / 10 := not_lt.mpr hconf
        by_cases h1 : 0 < amt
        · by_cases h2 : pyStripS ex.merchant = ""
          · refine ⟨?_, ?_, ?_⟩ <;>
              · unfold uploadReceipt
                simp [← hexdef, hvalid, hauth, hrec, hdup, hamt, hlt, h1, h2,
                  storeReceipt, backendGet_save_self]
          · have h3 : ex.validation_warnings.length ≠ 0 := by
              intro hlen
              exact hrest ⟨h1, h2, List.length_eq_zero.mp hlen⟩
            refine ⟨?_, ?_, ?_⟩ <;>
              · unfold uploadReceipt
                simp [← hexdef, hvalid, hauth, hrec, hdup, hamt, hlt, h1, h2, h3,
                  storeReceipt, backendGet_save_self]
        · refine ⟨?_, ?_, ?_⟩ <;>
            · unfold uploadReceipt
              simp [← hexdef, hvalid, hauth, hrec, hdup, hamt, hlt, h1, storeReceipt,
                backendGet_save_self]
      · have hlt : ex.confidence < 8 / 10 := not_le.mp hconf
        refine ⟨?_, ?_, ?_⟩ <;>
          · unfold uploadReceipt
            simp [← hexdef, hvalid, hauth, hrec, hdup, hamt, hlt, storeReceipt,
              backendGet_save_self]
    refine ⟨fun hc => absurd hc hC, fun _ => hpend, fun e t c h => ?_⟩
    exact absurd (hpend.1.symm.trans h) (by simp)

/-- Extraction used by the C1 witness: confident, positive total, clean
merchant, no warnings. -/
def c1Extracted : ExtractedData :=
  { merchant := "Starbucks", total_amount := .ok 24, date := "2024-01-15",
    confidence := 9 / 10 }

/-- Application state of the C1 witness: empty ledger and receipt store. -/
def c1State : AppState := { expenses := [], receipts := [] }

/-- C1 witness: a clean confident upload with all four conditions holding
auto-creates the ledger entry and appends it to the ledger. -/
theorem uploadReceipt_decision_spec_witness :
    ∃ expense,
      (uploadReceipt cleanPdfOracles (fun _ _ => { valid := true })
          (fun _ _ => c1Extracted) cleanPdfData "r.pdf" "u1" c1State "tok" "exp" 0
          "t0").1 =
        .autoCreated expense "tok" c1Extracted.confidence ∧
      (uploadReceipt cleanPdfOracles (fun _ _ => { valid := true })
          (fun _ _ => c1Extracted) cleanPdfData "r.pdf" "u1" c1State "tok" "exp" 0
          "t0").2.expenses = c1State.expenses ++ [expense] ∧
      expense.user_id = "u1" ∧ expense.description = c1Extracted.merchant ∧
      expense.amount = 24 ∧ expense.receipt_token = some "tok" :=
  (uploadReceipt_decision_spec cleanPdfOracles (fun _ _ => { valid := true })
      (fun _ _ => c1Extracted) cleanPdfData "r.pdf" "u1" c1State "tok" "exp" 0 "t0" 24
      (by set_option maxRecDepth 40000 in decide)
      rfl rfl
      (by set_option maxRecDepth 40000 in with_unfolding_all decide)
      rfl).1
    ⟨by with_unfolding_all decide, by norm_num, by decide, rfl⟩

end Budgetly
